import Mathlib

/-!
Verification development for the audiocat core: a shallow embedding of the
minimal-header prober and of the WAV and MP3 stitch engines, followed by
theorems about the behaviour of those functions.

Node buffers are modelled as lists of byte values; integer arithmetic is
modelled exactly (the JS code computes on numbers that stay well inside the
float-exact range under the stated hypotheses); fallible code returns
Except with the same error strings as the source.
-/

namespace Audiocat

/-- A Node Buffer modelled as a list of byte values. -/
abbrev Buffer := List Nat

/-- Byte at index i, 0 when out of range. The embedded code applies the read
primitives only where the source guards the read; the one place the source can
read past the end of the buffer, the fmt branch of the WAV chunk walk, is
modelled separately by an explicit out-of-range error. -/
def byteAt (b : Buffer) (i : Nat) : Nat := b.getD i 0

/-- Buffer.readUInt8. -/
def readUInt8 (b : Buffer) (i : Nat) : Nat := byteAt b i

/-- Buffer.readUInt16LE. -/
def readUInt16LE (b : Buffer) (i : Nat) : Nat := byteAt b i + 256 * byteAt b (i + 1)

/-- Buffer.readUInt32LE. -/
def readUInt32LE (b : Buffer) (i : Nat) : Nat :=
  byteAt b i + 256 * byteAt b (i + 1) + 65536 * byteAt b (i + 2) + 16777216 * byteAt b (i + 3)

/-- Bytes produced by Buffer.writeUInt16LE for an in-range value. -/
def u16le (v : Nat) : Buffer := [v % 256, v / 256 % 256]

/-- Bytes produced by Buffer.writeUInt32LE for an in-range value. -/
def u32le (v : Nat) : Buffer := [v % 256, v / 256 % 256, v / 65536 % 256, v / 16777216 % 256]

/-- Buffer.toString with the ascii encoding over [start, stop): Node unsets the
high bit of each byte when decoding as ascii, hence the mod 128. -/
def asciiSlice (b : Buffer) (start stop : Nat) : List Nat :=
  ((b.take stop).drop start).map (fun x => x % 128)

/-- The ascii codes of the four characters R I F F. -/
def magicRIFF : List Nat := [82, 73, 70, 70]

/-- The ascii codes of W A V E. -/
def magicWAVE : List Nat := [87, 65, 86, 69]

/-- The ascii codes of f m t and a space. -/
def magicFMT : List Nat := [102, 109, 116, 32]

/-- The ascii codes of d a t a. -/
def magicDATA : List Nat := [100, 97, 116, 97]

/-- The ascii codes of I D 3. -/
def magicID3 : List Nat := [73, 68, 51]

/-- readBytes on an in-memory source: buffer.subarray(offset, offset + length),
which clamps at the end of the buffer. -/
def readBytesBuf (b : Buffer) (offset length : Nat) : Buffer :=
  (b.drop offset).take length

/-- WAV variant of ProbeInfo. -/
structure WavProbeInfo where
  sampleRate : Nat
  channels : Nat
  bitsPerSample : Nat
  dataBytes : Option Nat
deriving DecidableEq

/-- MP3 variant of ProbeInfo. -/
structure Mp3ProbeInfo where
  sampleRate : Nat
  channels : Nat
  bitrateKbps : Option Nat
  vbr : Bool
  id3v2Bytes : Nat
deriving DecidableEq

/-- The tagged union returned by probe. -/
inductive ProbeInfo where
  | wav : WavProbeInfo → ProbeInfo
  | mp3 : Mp3ProbeInfo → ProbeInfo
deriving DecidableEq

/-- Container kind of a probe result. -/
inductive AudioContainer where
  | wav
  | mp3
deriving DecidableEq

def containerOf : ProbeInfo → AudioContainer
  | .wav _ => .wav
  | .mp3 _ => .mp3

def sampleRateOf : ProbeInfo → Nat
  | .wav w => w.sampleRate
  | .mp3 m => m.sampleRate

def channelsOf : ProbeInfo → Nat
  | .wav w => w.channels
  | .mp3 m => m.channels

/-- Per-variant extra positivity used to express that a probe result is fully
populated: the WAV variant also carries a nonzero bits-per-sample. -/
def bitsPopulated : ProbeInfo → Prop
  | .wav w => 0 < w.bitsPerSample
  | .mp3 _ => True

/-- skipId3Size: 0 unless the buffer starts with an ID3v2 header, else 10 plus
the 4-byte synchsafe size. -/
def skipId3Size (buf : Buffer) : Nat :=
  if buf.length < 10 then 0
  else if asciiSlice buf 0 3 ≠ magicID3 then 0
  else
    10 + ((((readUInt8 buf 6) &&& 127) <<< 21) |||
          (((readUInt8 buf 7) &&& 127) <<< 14) |||
          (((readUInt8 buf 8) &&& 127) <<< 7) |||
          ((readUInt8 buf 9) &&& 127))

/-- The byte-by-byte scanning loop shared by the frame-sync searches:
for (let i = start; i + 4 <= limit; i++) if (p i) return i; return none.
The fuel only bounds the iteration count; every caller passes fuel at least
limit + 1, which is ample because the guard i + 4 <= limit fails once i
reaches limit. -/
def scanFor (p : Nat → Bool) (limit : Nat) : Nat → Nat → Option Nat
  | 0, _ => none
  | fuel + 1, i =>
    if i + 4 ≤ limit then
      if p i then some i else scanFor p limit fuel (i + 1)
    else none

/-- The weak frame-sync test used by findFirstFrameOffset in stitch-mp3:
a 0xFF byte followed by a byte whose top three bits are set. -/
def isFrameSyncAt (buf : Buffer) (i : Nat) : Bool :=
  readUInt8 buf i == 255 && (readUInt8 buf (i + 1) &&& 224) == 224

/-- findFirstFrameOffset from stitch-mp3: first weak sync position at or after
start with four bytes available. -/
def findFirstFrameOffset (buf : Buffer) (start : Nat) : Option Nat :=
  scanFor (fun i => isFrameSyncAt buf i) buf.length (buf.length + 1) start

/-- The full acceptance test of the scanning loop in parseMp3Header: sync bytes,
Layer III, a bitrate index other than 15 and a sample-rate index other than 3. -/
def frameValidAt (buf : Buffer) (i : Nat) : Bool :=
  readUInt8 buf i == 255 &&
  (readUInt8 buf (i + 1) &&& 224) == 224 &&
  ((readUInt8 buf (i + 1) >>> 1) &&& 3) == 1 &&
  ((readUInt8 buf (i + 2) >>> 4) &&& 15) != 15 &&
  ((readUInt8 buf (i + 2) >>> 2) &&& 3) != 3

/-- The MPEG-1 Layer III bitrate table of parseMp3Header; indices 0 and 15 are
absent from the record, so index 0 yields no bitrate. -/
def mp3BitrateTable (idx : Nat) : Option Nat :=
  match idx with
  | 1 => some 32
  | 2 => some 40
  | 3 => some 48
  | 4 => some 56
  | 5 => some 64
  | 6 => some 80
  | 7 => some 96
  | 8 => some 112
  | 9 => some 128
  | 10 => some 160
  | 11 => some 192
  | 12 => some 224
  | 13 => some 256
  | 14 => some 320
  | _ => none

/-- Field decoding of an accepted 4-byte frame header at position i. -/
def decodeFrameAt (buf : Buffer) (i id3 : Nat) : Mp3ProbeInfo :=
  let b2 := readUInt8 buf (i + 1)
  let b3 := readUInt8 buf (i + 2)
  let b4 := readUInt8 buf (i + 3)
  let versionBits := (b2 >>> 3) &&& 3
  let sampleRateIndex := (b3 >>> 2) &&& 3
  let channelMode := (b4 >>> 6) &&& 3
  { sampleRate :=
      (if versionBits = 3 then [44100, 48000, 32000] else [22050, 24000, 16000]).getD
        sampleRateIndex 0
    channels := if channelMode = 3 then 1 else 2
    bitrateKbps := mp3BitrateTable ((b3 >>> 4) &&& 15)
    vbr := false
    id3v2Bytes := id3 }

/-- parseMp3Header: scan at most 4096 bytes past start (maxScan is the min of
the buffer length and start + 4096) for a valid frame header and decode it. -/
def parseMp3Header (buf : Buffer) (start : Nat) : Option Mp3ProbeInfo :=
  (scanFor (fun i => frameValidAt buf i) (min buf.length (start + 4096))
    (min buf.length (start + 4096) + 1) start).map (fun i => decodeFrameAt buf i start)

/-- State accumulated by the chunk-walking loop of parseWavHeader. -/
structure WavScan where
  fmtFound : Bool
  dataBytes : Option Nat
  sampleRate : Nat
  channels : Nat
  bitsPerSample : Nat
deriving DecidableEq

/-- Stand-in for the ERR_OUT_OF_RANGE exception Node raises on a buffer read
or write outside the accepted range; the model keeps only the error code, not
the value-dependent message text. -/
def outOfRangeMsg : String := "ERR_OUT_OF_RANGE"

/-- The chunk-walking loop of parseWavHeader: while a chunk id and size fit,
record the fmt fields (aborting on a non-PCM audio format) and the data size,
then advance past the declared chunk payload. In the fmt branch the source
reads two-byte and four-byte fields up to offset + 24 before the audio-format
test, under a guard of only offset + 8; when the buffer ends before offset +
24 one of those reads throws, modelled by the error result. The fuel only
bounds the iteration count; the offset grows by at least 8 per step and the
caller passes the buffer length, which the loop can never exhaust while its
guard holds. -/
def wavChunkWalk (buf : Buffer) : Nat → Nat → WavScan → Except String (Option WavScan)
  | 0, _, st => .ok (some st)
  | fuel + 1, offset, st =>
    if offset + 8 ≤ buf.length then
      let size := readUInt32LE buf (offset + 4)
      if asciiSlice buf offset (offset + 4) = magicFMT then
        if buf.length < offset + 24 then .error outOfRangeMsg
        else if readUInt16LE buf (offset + 8) ≠ 1 then .ok none
        else
          wavChunkWalk buf fuel (offset + 8 + size)
            { fmtFound := true
              dataBytes := st.dataBytes
              sampleRate := readUInt32LE buf (offset + 12)
              channels := readUInt16LE buf (offset + 10)
              bitsPerSample := readUInt16LE buf (offset + 22) }
      else if asciiSlice buf offset (offset + 4) = magicDATA then
        wavChunkWalk buf fuel (offset + 8 + size) { st with dataBytes := some size }
      else
        wavChunkWalk buf fuel (offset + 8 + size) st
    else .ok (some st)

/-- parseWavHeader: magic checks, chunk walk from offset 12, and the final
all-fields-present test. The ok-none result is the controlled null return of
the source; the error result is a propagated read exception. -/
def parseWavHeader (buf : Buffer) : Except String (Option WavProbeInfo) :=
  if buf.length < 44 then .ok none
  else if asciiSlice buf 0 4 ≠ magicRIFF then .ok none
  else if asciiSlice buf 8 12 ≠ magicWAVE then .ok none
  else
    match wavChunkWalk buf buf.length 12 ⟨false, none, 0, 0, 0⟩ with
    | .error e => .error e
    | .ok none => .ok none
    | .ok (some st) =>
      if st.fmtFound = false ∨ st.sampleRate = 0 ∨ st.channels = 0 ∨ st.bitsPerSample = 0
      then .ok none
      else .ok (some ⟨st.sampleRate, st.channels, st.bitsPerSample, st.dataBytes⟩)

/-- The single controlled rejection message of the minimal prober. -/
def unsupportedMsg : String := "Unsupported or unrecognized audio container"

/-- probe: read the first 8 KiB, try WAV, then MP3 after an optional ID3 skip,
otherwise reject; an exception thrown inside parseWavHeader propagates out of
probe unchanged. -/
def probe (source : Buffer) : Except String ProbeInfo :=
  let head := source.take 8192
  match parseWavHeader head with
  | .error e => .error e
  | .ok (some w) => .ok (.wav w)
  | .ok none =>
    match parseMp3Header head (skipId3Size head) with
    | some m => .ok (.mp3 m)
    | none => .error unsupportedMsg

/-! ## The WAV stitch engine -/

/-- The condition under which every writeUInt32LE and writeUInt16LE of
createWavHeader is in Node's accepted range (value between 0 and the type
maximum; a fractional in-range value is truncated by the write, not rejected,
so byteRate at most 2^32 - 1 reads sampleRate * channels * bits / 8 <=
4294967295, i.e. the product at most 34359738360, and likewise blockAlign).
When it fails, the first offending write throws ERR_OUT_OF_RANGE. -/
def wavHeaderWritable (totalDataBytes : Nat) (info : WavProbeInfo) : Prop :=
  36 + totalDataBytes ≤ 4294967295 ∧
  info.channels ≤ 65535 ∧
  info.sampleRate ≤ 4294967295 ∧
  info.sampleRate * info.channels * info.bitsPerSample ≤ 34359738360 ∧
  info.channels * info.bitsPerSample ≤ 524280 ∧
  info.bitsPerSample ≤ 65535 ∧
  totalDataBytes ≤ 4294967295

instance (totalDataBytes : Nat) (info : WavProbeInfo) :
    Decidable (wavHeaderWritable totalDataBytes info) := by
  unfold wavHeaderWritable; infer_instance

/-- The 44 header bytes produced when every write is in range. Each write of
the source is one little-endian piece at its fixed offset; byteRate and
blockAlign are the truncations of the float quotients of the source, which the
exact Nat divisions reproduce. -/
def wavHeaderBytes (totalDataBytes : Nat) (info : WavProbeInfo) : Buffer :=
  magicRIFF ++ u32le (36 + totalDataBytes) ++ magicWAVE ++
  magicFMT ++ u32le 16 ++ u16le 1 ++ u16le info.channels ++ u32le info.sampleRate ++
  u32le (info.sampleRate * info.channels * info.bitsPerSample / 8) ++
  u16le (info.channels * info.bitsPerSample / 8) ++ u16le info.bitsPerSample ++
  magicDATA ++ u32le totalDataBytes

/-- createWavHeader: the canonical 44-byte RIFF/WAVE/PCM header, or the
out-of-range exception when a field does not fit its write. -/
def createWavHeader (totalDataBytes : Nat) (info : WavProbeInfo) : Except String Buffer :=
  if wavHeaderWritable totalDataBytes info then .ok (wavHeaderBytes totalDataBytes info)
  else .error outOfRangeMsg

def wavParamMismatchMsg : String := "WAV parameter mismatch across sources"

/-- The validation loop of stitchWav: every source is probed again and must be
WAV with the parameters of the first probe. -/
def validateWav (firstInfo : WavProbeInfo) : List Buffer → Except String Unit
  | [] => .ok ()
  | s :: rest =>
    match probe s with
    | .error e => .error e
    | .ok (.mp3 _) => .error "All inputs must be WAV"
    | .ok (.wav info) =>
      if info.sampleRate ≠ firstInfo.sampleRate ∨ info.channels ≠ firstInfo.channels ∨
         info.bitsPerSample ≠ firstInfo.bitsPerSample
      then .error wavParamMismatchMsg
      else validateWav firstInfo rest

/-- The data-chunk locating loop of stitchWav: from offset 12, read chunk ids
and sizes; return the payload start and declared size of the data chunk. The
fuel only bounds the iterations; the offset grows by at least 8 per step and
callers pass the buffer length plus one, which cannot run out while the guard
offset + 8 <= length holds. -/
def findDataChunk (buf : Buffer) : Nat → Nat → Option (Nat × Nat)
  | 0, _ => none
  | fuel + 1, offset =>
    if offset + 8 ≤ buf.length then
      let size := readUInt32LE buf (offset + 4)
      if asciiSlice buf offset (offset + 4) = magicDATA then some (offset + 8, size)
      else findDataChunk buf fuel (offset + 8 + size)
    else none

/-- Data chunk of one source, located in its first 8 KiB. -/
def dataChunkOf (s : Buffer) : Option (Nat × Nat) :=
  findDataChunk (s.take 8192) ((s.take 8192).length + 1) 12

/-- Declared data-chunk size of a source (0 when absent). -/
def dataSizeOf (s : Buffer) : Nat :=
  match dataChunkOf s with
  | some (_, sz) => sz
  | none => 0

/-- The data-chunk payload bytes of a source: the declared-size slice starting
at the payload offset (clamped at end of source, as Buffer.subarray clamps). -/
def payloadOf (s : Buffer) : Buffer :=
  match dataChunkOf s with
  | some (st, sz) => readBytesBuf s st sz
  | none => []

/-- The per-source part record built by the scanning loop of stitchWav. -/
def wavPartOf (s : Buffer) : Buffer × Nat × Nat :=
  match dataChunkOf s with
  | some (st, sz) => (s, st, sz)
  | none => (s, 0, 0)

/-- The scanning loop of stitchWav over all sources, failing when a source has
no data chunk in its header window. -/
def scanPartsWav : List Buffer → Except String (List (Buffer × Nat × Nat))
  | [] => .ok []
  | s :: rest =>
    match dataChunkOf s with
    | none => .error "WAV data chunk not found"
    | some (st, sz) =>
      match scanPartsWav rest with
      | .error e => .error e
      | .ok tail => .ok ((s, st, sz) :: tail)

/-- bytesPerMs = Math.floor(sampleRate * channels * (bitsPerSample / 8) / 1000),
an exact floor of the rational sampleRate * channels * bitsPerSample / 8000,
which the single Nat division computes for every bitsPerSample. -/
def wavBytesPerMs (info : WavProbeInfo) : Nat :=
  info.sampleRate * info.channels * info.bitsPerSample / 8000

/-- Total payload size accumulated by the scanning loop: each declared data
size, plus the gap size between every pair of consecutive sources. -/
def wavTotalData (gapBytes : Nat) : List (Buffer × Nat × Nat) → Nat
  | [] => 0
  | [p] => p.2.2
  | p :: q :: rest => p.2.2 + gapBytes + wavTotalData gapBytes (q :: rest)

/-- Buffer-mode body assembly of stitchWav: each payload slice, with the
zero-filled gap buffer pushed between consecutive sources when gapMs > 0. -/
def wavBodyBuffer (gapBuf : Buffer) : List (Buffer × Nat × Nat) → Buffer
  | [] => []
  | [p] => readBytesBuf p.1 p.2.1 p.2.2
  | p :: q :: rest => readBytesBuf p.1 p.2.1 p.2.2 ++ gapBuf ++ wavBodyBuffer gapBuf (q :: rest)

/-- Total payload computed directly from the source list, used to state the
claims: sum of declared data sizes plus one gap region per adjacent pair. -/
def wavTotalOf (sources : List Buffer) (gapBytes : Nat) : Nat :=
  (sources.map dataSizeOf).sum + (sources.length - 1) * gapBytes

/-- The claim-side body: each payload of the source list in order, with the
gap buffer between consecutive sources. -/
def wavPayloadConcat (gapBuf : Buffer) : List Buffer → Buffer
  | [] => []
  | [s] => payloadOf s
  | s :: s2 :: rest => payloadOf s ++ gapBuf ++ wavPayloadConcat gapBuf (s2 :: rest)

/-- Shared pipeline prefix of stitchWav: emptiness check, probe of the first
source, validation of all sources, and the part scan. Returns the first probe
info, the defaulted gapMs, bytesPerMs and the parts. -/
def stitchWavCore (sources : List Buffer) (gapMsOpt : Option Nat) :
    Except String (WavProbeInfo × Nat × Nat × List (Buffer × Nat × Nat)) :=
  match sources with
  | [] => .error "No sources provided"
  | s0 :: rest =>
    match probe s0 with
    | .error e => .error e
    | .ok (.mp3 _) => .error "stitchWav requires WAV inputs"
    | .ok (.wav firstInfo) =>
      match validateWav firstInfo (s0 :: rest) with
      | .error e => .error e
      | .ok _ =>
        match scanPartsWav (s0 :: rest) with
        | .error e => .error e
        | .ok parts => .ok (firstInfo, gapMsOpt.getD 0, wavBytesPerMs firstInfo, parts)

/-- stitchWav with buffer output; a header write out of range propagates its
exception. -/
def stitchWavBuffer (sources : List Buffer) (gapMsOpt : Option Nat) : Except String Buffer :=
  match stitchWavCore sources gapMsOpt with
  | .error e => .error e
  | .ok (info, gapMs, bytesPerMs, parts) =>
    let gapBytes := if gapMs > 0 then bytesPerMs * gapMs else 0
    match createWavHeader (wavTotalData gapBytes parts) info with
    | .error e => .error e
    | .ok header =>
      .ok (header ++
           wavBodyBuffer (if gapMs > 0 then List.replicate (bytesPerMs * gapMs) 0 else []) parts)

/-- One iteration of the bounded file-mode copy loop of stitchWav: read at most
64 KiB of the remaining payload; the read can come back short at end of data. -/
def copyStep (src : Buffer) (position remaining : Nat) : Nat × Nat × Buffer :=
  let toRead := min 65536 remaining
  let chunk := readBytesBuf src position toRead
  (position + chunk.length, remaining - chunk.length, chunk)

/-- The while (remaining > 0) copy loop, fuelled: the concatenation of the
chunks written. Fuel equal to the remaining count suffices whenever every
iteration makes progress. -/
def copyRun (src : Buffer) : Nat → Nat → Nat → Buffer
  | 0, _, _ => []
  | fuel + 1, position, remaining =>
    if remaining = 0 then []
    else
      let st := copyStep src position remaining
      st.2.2 ++ copyRun src fuel st.1 st.2.1

/-- The zero-fill gap loop of file mode, fuelled likewise. -/
def zeroRun : Nat → Nat → Buffer
  | 0, _ => []
  | fuel + 1, gapBytes =>
    if gapBytes = 0 then []
    else
      let n := min 65536 gapBytes
      List.replicate n 0 ++ zeroRun fuel (gapBytes - n)

/-- File-mode per-part writes of stitchWav: the chunked copy of each payload,
with the chunked zero fill between consecutive sources when gapMs > 0. -/
def wavFilePartWrites (gapMs bytesPerMs : Nat) : List (Buffer × Nat × Nat) → Buffer
  | [] => []
  | [p] => copyRun p.1 p.2.2 p.2.1 p.2.2
  | p :: q :: rest =>
    copyRun p.1 p.2.2 p.2.1 p.2.2 ++
    (if gapMs > 0 then zeroRun (bytesPerMs * gapMs) (bytesPerMs * gapMs) else []) ++
    wavFilePartWrites gapMs bytesPerMs (q :: rest)

/-- stitchWav with file output: the byte stream written to the file (header
first, then the streamed parts); the header is created, and can throw, before
any write. -/
def stitchWavFile (sources : List Buffer) (gapMsOpt : Option Nat) : Except String Buffer :=
  match stitchWavCore sources gapMsOpt with
  | .error e => .error e
  | .ok (info, gapMs, bytesPerMs, parts) =>
    let gapBytes := if gapMs > 0 then bytesPerMs * gapMs else 0
    match createWavHeader (wavTotalData gapBytes parts) info with
    | .error e => .error e
    | .ok header => .ok (header ++ wavFilePartWrites gapMs bytesPerMs parts)

/-! ## The MP3 stitch engine -/

/-- The gapRounding option. -/
inductive GapRounding where
  | floor
  | ceil
  | nearest
deriving DecidableEq

/-- StitchMp3Options; optional fields keep their source defaults (gapMs 0,
keepFirstId3 true, gapRounding nearest). The silence override is modelled as
bytes. -/
structure StitchMp3Opts where
  gapMs : Option Nat
  silence : Option Buffer
  keepFirstId3 : Option Bool
  gapRounding : Option GapRounding
deriving DecidableEq

/-- Mono or stereo, as used in the silence asset path. -/
inductive ChannelMode where
  | mono
  | stereo
deriving DecidableEq

/-- The bundled silence asset directory, abstracted: a lookup keyed by sample
rate, channel mode and bitrate in kbps. -/
abbrev SilenceCatalog := Nat → ChannelMode → Nat → Option Buffer

def silenceNotFoundMsg : String := "Silence asset not found"

/-- loadSilenceAsset: a caller-supplied override wins; otherwise look the asset
up under the (sampleRate, mono-or-stereo, bitrate-or-128k) key. -/
def loadSilenceAsset (catalog : SilenceCatalog) (info : Mp3ProbeInfo)
    (opts : StitchMp3Opts) : Except String Buffer :=
  match opts.silence with
  | some b => .ok b
  | none =>
    let channelMode := if info.channels = 1 then ChannelMode.mono else ChannelMode.stereo
    let bitrateNum := info.bitrateKbps.getD 128
    match catalog info.sampleRate channelMode bitrateNum with
    | some b => .ok b
    | none => .error silenceNotFoundMsg

/-- estimateFrameDurationMs = 1152 / sampleRate * 1000, in exact arithmetic. -/
def estimateFrameDurationMs (info : Mp3ProbeInfo) : ℚ :=
  1152 / (info.sampleRate : ℚ) * 1000

/-- The rounded, clamped frame count for one gap: gapMs / frameDurationMs put
through the configured rounding policy, then clamped to at least 0. -/
def gapFrames (info : Mp3ProbeInfo) (gapMs : Nat) (rounding : GapRounding) : ℤ :=
  let framesExact : ℚ := (gapMs : ℚ) / estimateFrameDurationMs info
  let frames : ℤ :=
    match rounding with
    | .floor => ⌊framesExact⌋
    | .ceil => ⌈framesExact⌉
    | .nearest => round framesExact
  max frames 0

/-- Number of whole copies of the 0.1 s asset appended for one positive gap:
max(1, ceil(frames * frameDurationMs / 100)). -/
def silenceRepeats (info : Mp3ProbeInfo) (gapMs : Nat) (rounding : GapRounding) : Nat :=
  (max 1 ⌈((gapFrames info gapMs rounding : ℚ) * estimateFrameDurationMs info) / 100⌉).toNat

/-- The silence buffers pushed for one gap: nothing when the rounded frame
count is not positive, else the asset repeated silenceRepeats times. -/
def gapAppend (info : Mp3ProbeInfo) (gapMs : Nat) (rounding : GapRounding)
    (silence : Buffer) : List Buffer :=
  if 0 < gapFrames info gapMs rounding then
    List.replicate (silenceRepeats info gapMs rounding) silence
  else []

def mp3SyncNotFoundMsg : String := "MP3 frame sync not found"

/-- Frame-sync offset of one source: ID3 skip then weak sync scan, both over
the first 8 KiB. -/
def mp3FrameOffsetOf (s : Buffer) : Option Nat :=
  findFirstFrameOffset (s.take 8192) (skipId3Size (s.take 8192))

/-- Frame-sync offset with default 0, used to state the claims about sources
whose scan is known to succeed. -/
def mp3SyncOffsetOf (s : Buffer) : Nat := (mp3FrameOffsetOf s).getD 0

def mp3MismatchMsg : String := "MP3 parameter mismatch across sources"

def mp3BitrateMismatchMsg : String := "MP3 bitrate mismatch across sources"

/-- The validation loop of stitchMp3 over the sources after the first. -/
def validateMp3 (firstInfo : Mp3ProbeInfo) : List Buffer → Except String Unit
  | [] => .ok ()
  | s :: rest =>
    match probe s with
    | .error e => .error e
    | .ok (.wav _) => .error "All inputs must be MP3"
    | .ok (.mp3 info) =>
      if info.sampleRate ≠ firstInfo.sampleRate ∨ info.channels ≠ firstInfo.channels
      then .error mp3MismatchMsg
      else if info.bitrateKbps ≠ firstInfo.bitrateKbps then .error mp3BitrateMismatchMsg
      else validateMp3 firstInfo rest

/-- The per-source loop of stitchMp3: find the frame sync, keep the whole
first source when keepFirstId3, append the remainder from the sync onward,
and push the silence copies between consecutive sources when gapMs > 0. -/
def mp3Loop (catalog : SilenceCatalog) (firstInfo : Mp3ProbeInfo) (keepFirst : Bool)
    (gapMs : Nat) (rounding : GapRounding) (opts : StitchMp3Opts) :
    Bool → List Buffer → Except String (List Buffer)
  | _, [] => .ok []
  | isFirst, s :: rest =>
    match mp3FrameOffsetOf s with
    | none => .error mp3SyncNotFoundMsg
    | some frameOff =>
      let startOff := if keepFirst && isFirst then 0 else frameOff
      let chunk := readBytesBuf s startOff (s.length - startOff)
      match rest with
      | [] => .ok [chunk]
      | r :: rs =>
        if gapMs > 0 then
          match loadSilenceAsset catalog firstInfo opts with
          | .error e => .error e
          | .ok silence =>
            match mp3Loop catalog firstInfo keepFirst gapMs rounding opts false (r :: rs) with
            | .error e => .error e
            | .ok tail => .ok (chunk :: (gapAppend firstInfo gapMs rounding silence ++ tail))
        else
          match mp3Loop catalog firstInfo keepFirst gapMs rounding opts false (r :: rs) with
          | .error e => .error e
          | .ok tail => .ok (chunk :: tail)

/-- stitchMp3 up to the list of parts: probe of the first source, validation of
the rest, then the per-source loop. -/
def stitchMp3Parts (catalog : SilenceCatalog) (sources : List Buffer)
    (opts : StitchMp3Opts) : Except String (List Buffer) :=
  match sources with
  | [] => .error "No sources provided"
  | s0 :: rest =>
    match probe s0 with
    | .error e => .error e
    | .ok (.wav _) => .error "stitchMp3 requires MP3 inputs"
    | .ok (.mp3 firstInfo) =>
      match validateMp3 firstInfo rest with
      | .error e => .error e
      | .ok _ =>
        mp3Loop catalog firstInfo (opts.keepFirstId3.getD true) (opts.gapMs.getD 0)
          (opts.gapRounding.getD .nearest) opts true (s0 :: rest)

/-- stitchMp3 with buffer output: Buffer.concat of the parts. -/
def stitchMp3Buffer (catalog : SilenceCatalog) (sources : List Buffer)
    (opts : StitchMp3Opts) : Except String Buffer :=
  (stitchMp3Parts catalog sources opts).map List.flatten

/-- stitchMp3 with file output: the parts are written sequentially, so the file
contents are the same byte stream as in buffer mode. -/
def stitchMp3File (catalog : SilenceCatalog) (sources : List Buffer)
    (opts : StitchMp3Opts) : Except String Buffer :=
  (stitchMp3Parts catalog sources opts).map List.flatten

/-- The claim-side shape of the mp3 parts: the chunk of each source (whole
first source when keepFirst, remainder from the sync otherwise), with the gap
silence copies between consecutive sources when gapMs > 0. -/
def mp3ExpectedParts (info : Mp3ProbeInfo) (keepFirst : Bool) (gapMs : Nat)
    (rounding : GapRounding) (silence : Buffer) : Bool → List Buffer → List Buffer
  | _, [] => []
  | isFirst, s :: rest =>
    (s.drop (if keepFirst && isFirst then 0 else mp3SyncOffsetOf s)) ::
      (match rest with
       | [] => []
       | r :: rs =>
         (if gapMs > 0 then gapAppend info gapMs rounding silence else []) ++
         mp3ExpectedParts info keepFirst gapMs rounding silence false (r :: rs))

/-! ## Concrete sample inputs used by witnesses and counterexamples -/

/-- A minimal canonical PCM WAV: 44100 Hz, mono, 16-bit, 4 payload bytes. -/
def wavSampleA : Buffer := wavHeaderBytes 4 ⟨44100, 1, 16, none⟩ ++ [1, 2, 3, 4]

/-- Same shape at 48000 Hz, used for mismatch scenarios. -/
def wavSampleB : Buffer := wavHeaderBytes 4 ⟨48000, 1, 16, none⟩ ++ [1, 2, 3, 4]

/-- A minimal MP3: one valid MPEG-1 Layer III header (44100 Hz, stereo,
128 kbps) and six padding bytes. -/
def mp3A : Buffer := [255, 251, 144, 0, 0, 0, 0, 0, 0, 0]

/-- Like mp3A but mono (channel-mode bits set), for mismatch scenarios. -/
def mp3B : Buffer := [255, 251, 144, 192, 0, 0, 0, 0, 0, 0]

/-- Like mp3A but 160 kbps, for the bitrate mismatch scenario. -/
def mp3C : Buffer := [255, 251, 160, 0, 0, 0, 0, 0, 0, 0]

/-- A 43-byte buffer that probes as MP3 (its only frame sync sits in the
byte-rate field of a truncated RIFF layout) yet, once a second MP3 source is
appended behind it, the concatenation parses as a complete PCM WAV header. -/
def wavLikeMp3 : Buffer :=
  [82, 73, 70, 70, 0, 0, 0, 0, 87, 65, 86, 69,
   102, 109, 116, 32, 16, 0, 0, 0, 1, 0, 1, 0,
   68, 172, 0, 0, 255, 251, 144, 0, 2, 0, 16, 0,
   100, 97, 116, 97, 0, 0, 0]

/-- A 44-byte RIFF/WAVE file whose fmt audio-format code is 2 (non-PCM). -/
def nonPcmWav : Buffer :=
  [82, 73, 70, 70, 36, 0, 0, 0, 87, 65, 86, 69,
   102, 109, 116, 32, 16, 0, 0, 0, 2, 0, 1, 0,
   68, 172, 0, 0, 0, 0, 0, 0, 2, 0, 16, 0,
   100, 97, 116, 97, 0, 0, 0, 0]

/-- A 44-byte RIFF/WAVE file whose trailing chunk is a truncated fmt: a junk
chunk of size 16 at offset 12, then a fmt chunk id at offset 36 whose fields
would extend to offset 60, past the end of the buffer. -/
def truncatedFmtWav : Buffer :=
  [82, 73, 70, 70, 36, 0, 0, 0, 87, 65, 86, 69,
   106, 117, 110, 107, 16, 0, 0, 0,
   0, 0, 0, 0, 0, 0, 0, 0, 0, 0, 0, 0, 0, 0, 0, 0,
   102, 109, 116, 32, 0, 0, 0, 0]

/-- The zero-byte count of one gap region: bytesPerMs * gapMs when the
defaulted gapMs is positive, else 0 (no gap region is emitted). -/
def wavGapBytes (info : WavProbeInfo) (gapMsOpt : Option Nat) : Nat :=
  if gapMsOpt.getD 0 > 0 then wavBytesPerMs info * gapMsOpt.getD 0 else 0

/-- The gap buffer pushed between consecutive sources in buffer mode. -/
def wavGapBuf (info : WavProbeInfo) (gapMsOpt : Option Nat) : Buffer :=
  if gapMsOpt.getD 0 > 0 then List.replicate (wavBytesPerMs info * gapMsOpt.getD 0) 0 else []

/-- A WAV source is well formed when its data chunk is found in the header
window and its declared size does not exceed the bytes present. -/
def WavWellFormed (s : Buffer) : Prop :=
  ∃ st sz, dataChunkOf s = some (st, sz) ∧ st + sz ≤ s.length

/-- A catalog with no assets. -/
def emptyCatalog : SilenceCatalog := fun _ _ _ => none

/-- A catalog holding one asset for every key, used in witnesses. -/
def constCatalog (b : Buffer) : SilenceCatalog := fun _ _ _ => some b

/-! ## Byte and list helper lemmas -/

theorem byteAt_take {b : Buffer} {n i : Nat} (h : i < n) : byteAt (b.take n) i = byteAt b i := by
  simp [byteAt, List.getD_eq_getElem?_getD, List.getElem?_take, h]

theorem byteAt_append_left {b₁ b₂ : Buffer} {i : Nat} (h : i < b₁.length) :
    byteAt (b₁ ++ b₂) i = byteAt b₁ i :=
  List.getD_append b₁ b₂ 0 i h

theorem byteAt_lt_256 {b : Buffer} (hb : ∀ x ∈ b, x < 256) (i : Nat) : byteAt b i < 256 := by
  rcases h : b[i]? with _ | x
  · simp [byteAt, List.getD_eq_getElem?_getD, h]
  · have := hb x (List.getElem?_mem h)
    simp [byteAt, List.getD_eq_getElem?_getD, h, this]

theorem readUInt16LE_lt {b : Buffer} (hb : ∀ x ∈ b, x < 256) (i : Nat) :
    readUInt16LE b i < 65536 := by
  have h0 := byteAt_lt_256 hb i
  have h1 := byteAt_lt_256 hb (i + 1)
  unfold readUInt16LE
  omega

theorem readUInt32LE_lt {b : Buffer} (hb : ∀ x ∈ b, x < 256) (i : Nat) :
    readUInt32LE b i < 4294967296 := by
  have h0 := byteAt_lt_256 hb i
  have h1 := byteAt_lt_256 hb (i + 1)
  have h2 := byteAt_lt_256 hb (i + 2)
  have h3 := byteAt_lt_256 hb (i + 3)
  unfold readUInt32LE
  omega

theorem readBytesBuf_to_end (s : Buffer) (o : Nat) :
    readBytesBuf s o (s.length - o) = s.drop o := by
  apply List.take_of_length_le
  simp

theorem readBytesBuf_full (s : Buffer) : readBytesBuf s 0 s.length = s := by
  simpa using readBytesBuf_to_end s 0

theorem readBytesBuf_length {s : Buffer} {st sz : Nat} (h : st + sz ≤ s.length) :
    (readBytesBuf s st sz).length = sz := by
  simp [readBytesBuf]
  omega

/-! ## Characterization of the scanning loop -/

theorem scanFor_found {p : Nat → Bool} {limit j : Nat} :
    ∀ {fuel i : Nat}, limit ≤ i + fuel → i ≤ j → j + 4 ≤ limit → p j = true →
      (∀ k, i ≤ k → k < j → p k = false) → scanFor p limit fuel i = some j := by
  intro fuel
  induction fuel with
  | zero => intro i hfu hij hj hp hmin; omega
  | succ n ih =>
    intro i hfu hij hj hp hmin
    unfold scanFor
    rcases Nat.eq_or_lt_of_le hij with rfl | hlt
    · simp [hj, hp]
    · have hguard : i + 4 ≤ limit := by omega
      have hpi : p i = false := hmin i (Nat.le_refl i) hlt
      simp only [hguard, if_pos, hpi]
      simp only [Bool.false_eq_true, if_false]
      exact ih (by omega) (by omega) hj hp (fun k hk1 hk2 => hmin k (by omega) hk2)

theorem scanFor_none {p : Nat → Bool} {limit : Nat} :
    ∀ {fuel i : Nat}, (∀ k, i ≤ k → k + 4 ≤ limit → p k = false) →
      scanFor p limit fuel i = none := by
  intro fuel
  induction fuel with
  | zero => intro i _; rfl
  | succ n ih =>
    intro i hmin
    unfold scanFor
    by_cases hguard : i + 4 ≤ limit
    · have hpi : p i = false := hmin i (Nat.le_refl i) hguard
      simp only [hguard, if_pos, hpi, Bool.false_eq_true, if_false]
      exact ih (fun k hk1 hk2 => hmin k (by omega) hk2)
    · simp [hguard]

theorem scanFor_eq_some {p : Nat → Bool} {limit : Nat} :
    ∀ {fuel i j : Nat}, scanFor p limit fuel i = some j →
      i ≤ j ∧ j + 4 ≤ limit ∧ p j = true ∧ ∀ k, i ≤ k → k < j → p k = false := by
  intro fuel
  induction fuel with
  | zero => intro i j h; simp [scanFor] at h
  | succ n ih =>
    intro i j h
    unfold scanFor at h
    by_cases hguard : i + 4 ≤ limit
    · simp only [hguard, if_pos] at h
      by_cases hpi : p i
      · simp only [hpi, if_pos] at h
        obtain rfl : i = j := Option.some.inj h
        exact ⟨Nat.le_refl i, hguard, hpi, fun k hk1 hk2 => absurd (Nat.lt_of_le_of_lt hk1 hk2) (Nat.lt_irrefl i)⟩
      · simp only [hpi, if_neg, Bool.false_eq_true, if_false] at h
        obtain ⟨h1, h2, h3, h4⟩ := ih h
        refine ⟨by omega, h2, h3, fun k hk1 hk2 => ?_⟩
        rcases Nat.eq_or_lt_of_le hk1 with rfl | hlt
        · simpa using hpi
        · exact h4 k (by omega) hk2
    · simp [hguard] at h

theorem scanFor_isSome {p : Nat → Bool} {limit fuel i j : Nat}
    (hfu : limit ≤ i + fuel) (hij : i ≤ j) (hj : j + 4 ≤ limit) (hp : p j = true) :
    (scanFor p limit fuel i).isSome := by
  classical
  have hex : ∃ k, i ≤ k ∧ k + 4 ≤ limit ∧ p k = true := ⟨j, hij, hj, hp⟩
  obtain ⟨h1, h2, h3⟩ := Nat.find_spec hex
  have hmin : ∀ k, i ≤ k → k < Nat.find hex → p k = false := by
    intro k hk1 hk2
    have hnot := Nat.find_min hex hk2
    by_contra hpk
    exact hnot ⟨hk1, by omega, by simpa using hpk⟩
  rw [scanFor_found hfu h1 h2 h3 hmin]
  rfl

/-! ## Inversion lemmas for probe -/

theorem probe_of_parseWav {s : Buffer} {w : WavProbeInfo}
    (h : parseWavHeader (s.take 8192) = .ok (some w)) : probe s = .ok (.wav w) := by
  unfold probe
  simp [h]

theorem probe_of_parseMp3 {s : Buffer} {m : Mp3ProbeInfo}
    (hw : parseWavHeader (s.take 8192) = .ok none)
    (h : parseMp3Header (s.take 8192) (skipId3Size (s.take 8192)) = some m) :
    probe s = .ok (.mp3 m) := by
  unfold probe
  simp [hw, h]

theorem probe_ok_wav_elim {s : Buffer} {w : WavProbeInfo} (h : probe s = .ok (.wav w)) :
    parseWavHeader (s.take 8192) = .ok (some w) := by
  rcases hw : parseWavHeader (s.take 8192) with e | (_ | w2)
  · simp [probe, hw] at h
  · rcases hm : parseMp3Header (s.take 8192) (skipId3Size (s.take 8192)) with _ | m
    · simp [probe, hw, hm] at h
    · simp [probe, hw, hm] at h
  · simp only [probe, hw, Except.ok.injEq, ProbeInfo.wav.injEq] at h
    rw [h]

theorem probe_ok_mp3_elim {s : Buffer} {m : Mp3ProbeInfo} (h : probe s = .ok (.mp3 m)) :
    parseWavHeader (s.take 8192) = .ok none ∧
      parseMp3Header (s.take 8192) (skipId3Size (s.take 8192)) = some m := by
  rcases hw : parseWavHeader (s.take 8192) with e | (_ | w2)
  · simp [probe, hw] at h
  · rcases hm : parseMp3Header (s.take 8192) (skipId3Size (s.take 8192)) with _ | m'
    · simp [probe, hw, hm] at h
    · simp only [probe, hw, hm, Except.ok.injEq, ProbeInfo.mp3.injEq] at h
      exact ⟨rfl, by rw [h]⟩
  · simp [probe, hw] at h

theorem frameValid_imp_sync {buf : Buffer} {i : Nat} (h : frameValidAt buf i = true) :
    isFrameSyncAt buf i = true := by
  unfold frameValidAt at h
  unfold isFrameSyncAt
  simp only [Bool.and_eq_true] at h
  simp [h.1.1.1.1, h.1.1.1.2]

/-- Elimination for parseMp3Header: a successful parse pinpoints the first
valid frame position in the scan window. -/
theorem parseMp3Header_elim {buf : Buffer} {start : Nat} {m : Mp3ProbeInfo}
    (h : parseMp3Header buf start = some m) :
    ∃ i, start ≤ i ∧ i + 4 ≤ min buf.length (start + 4096) ∧ frameValidAt buf i = true ∧
      decodeFrameAt buf i start = m ∧
      ∀ k, start ≤ k → k < i → frameValidAt buf k = false := by
  unfold parseMp3Header at h
  rcases Option.map_eq_some'.mp h with ⟨i, hscan, hdec⟩
  obtain ⟨h1, h2, h3, h4⟩ := scanFor_eq_some hscan
  exact ⟨i, h1, h2, h3, hdec, h4⟩

/-- Introduction for parseMp3Header from the first valid frame position. -/
theorem parseMp3Header_intro {buf : Buffer} {start i : Nat}
    (h1 : start ≤ i) (h2 : i + 4 ≤ min buf.length (start + 4096))
    (h3 : frameValidAt buf i = true)
    (hmin : ∀ k, start ≤ k → k < i → frameValidAt buf k = false) :
    parseMp3Header buf start = some (decodeFrameAt buf i start) := by
  unfold parseMp3Header
  rw [scanFor_found (by omega) h1 h2 h3 hmin]
  rfl

/-- A source that probes as MP3 always has a weak frame sync, so the scanning
step of stitchMp3 cannot fail on it. -/
theorem probe_mp3_sync {s : Buffer} {m : Mp3ProbeInfo} (h : probe s = .ok (.mp3 m)) :
    (mp3FrameOffsetOf s).isSome := by
  obtain ⟨-, hm⟩ := probe_ok_mp3_elim h
  obtain ⟨i, h1, h2, h3, -, -⟩ := parseMp3Header_elim hm
  unfold mp3FrameOffsetOf findFirstFrameOffset
  exact scanFor_isSome (by omega) h1 (by omega) (frameValid_imp_sync h3)

/-! ## The validation loops -/

theorem validateWav_ok {info0 : WavProbeInfo} :
    ∀ {l : List Buffer},
      (∀ s ∈ l, ∃ i : WavProbeInfo, probe s = .ok (.wav i) ∧
        i.sampleRate = info0.sampleRate ∧ i.channels = info0.channels ∧
        i.bitsPerSample = info0.bitsPerSample) →
      validateWav info0 l = .ok ()
  | [], _ => rfl
  | s :: rest, h => by
    obtain ⟨i, hp, h1, h2, h3⟩ := h s (List.mem_cons_self s rest)
    unfold validateWav
    rw [hp]
    simp only [h1, h2, h3, ne_eq, not_true_eq_false, or_self, if_false]
    exact validateWav_ok (fun t ht => h t (List.mem_cons_of_mem s ht))

theorem validateWav_mismatch {info0 : WavProbeInfo} :
    ∀ {l : List Buffer},
      (∀ s ∈ l, ∃ i : WavProbeInfo, probe s = .ok (.wav i)) →
      (∃ s ∈ l, ∃ i : WavProbeInfo, probe s = .ok (.wav i) ∧
        (i.sampleRate ≠ info0.sampleRate ∨ i.channels ≠ info0.channels ∨
         i.bitsPerSample ≠ info0.bitsPerSample)) →
      validateWav info0 l = .error wavParamMismatchMsg
  | [], _, hdiff => by simp at hdiff
  | s :: rest, hall, hdiff => by
    obtain ⟨i, hp⟩ := hall s (List.mem_cons_self s rest)
    unfold validateWav
    rw [hp]
    by_cases hmis : i.sampleRate ≠ info0.sampleRate ∨ i.channels ≠ info0.channels ∨
        i.bitsPerSample ≠ info0.bitsPerSample
    · simp [hmis]
    · simp only [hmis, if_false]
      push_neg at hmis
      obtain ⟨h1, h2, h3⟩ := hmis
      apply validateWav_mismatch (fun t ht => hall t (List.mem_cons_of_mem s ht))
      obtain ⟨t, hmem, j, hj, hjd⟩ := hdiff
      rcases List.mem_cons.mp hmem with rfl | hmem'
      · rw [hp] at hj
        simp only [Except.ok.injEq, ProbeInfo.wav.injEq] at hj
        rw [← hj] at hjd
        exact absurd hjd (by simp [h1, h2, h3])
      · exact ⟨t, hmem', j, hj, hjd⟩

theorem validateMp3_ok {info0 : Mp3ProbeInfo} :
    ∀ {l : List Buffer},
      (∀ s ∈ l, ∃ m : Mp3ProbeInfo, probe s = .ok (.mp3 m) ∧
        m.sampleRate = info0.sampleRate ∧ m.channels = info0.channels ∧
        m.bitrateKbps = info0.bitrateKbps) →
      validateMp3 info0 l = .ok ()
  | [], _ => rfl
  | s :: rest, h => by
    obtain ⟨m, hp, h1, h2, h3⟩ := h s (List.mem_cons_self s rest)
    unfold validateMp3
    rw [hp]
    simp only [h1, h2, h3, ne_eq, not_true_eq_false, or_self, if_false]
    exact validateMp3_ok (fun t ht => h t (List.mem_cons_of_mem s ht))

theorem validateMp3_mismatch {info0 : Mp3ProbeInfo} :
    ∀ {l : List Buffer},
      (∀ s ∈ l, ∃ m : Mp3ProbeInfo, probe s = .ok (.mp3 m)) →
      (∃ s ∈ l, ∃ m : Mp3ProbeInfo, probe s = .ok (.mp3 m) ∧
        (m.sampleRate ≠ info0.sampleRate ∨ m.channels ≠ info0.channels ∨
         m.bitrateKbps ≠ info0.bitrateKbps)) →
      validateMp3 info0 l = .error mp3MismatchMsg ∨
        validateMp3 info0 l = .error mp3BitrateMismatchMsg
  | [], _, hdiff => by simp at hdiff
  | s :: rest, hall, hdiff => by
    obtain ⟨m, hp⟩ := hall s (List.mem_cons_self s rest)
    unfold validateMp3
    rw [hp]
    by_cases hsr : m.sampleRate ≠ info0.sampleRate ∨ m.channels ≠ info0.channels
    · left
      simp [hsr]
    · simp only [hsr, if_false]
      by_cases hbr : m.bitrateKbps ≠ info0.bitrateKbps
      · right
        simp [hbr]
      · simp only [hbr, if_false]
        push_neg at hsr hbr
        apply validateMp3_mismatch (fun t ht => hall t (List.mem_cons_of_mem s ht))
        obtain ⟨t, hmem, j, hj, hjd⟩ := hdiff
        rcases List.mem_cons.mp hmem with rfl | hmem'
        · rw [hp] at hj
          simp only [Except.ok.injEq, ProbeInfo.mp3.injEq] at hj
          rw [← hj] at hjd
          exact absurd hjd (by simp [hsr.1, hsr.2, hbr])
        · exact ⟨t, hmem', j, hj, hjd⟩

/-! ## The WAV scanning loop and pipeline -/

theorem scanPartsWav_ok :
    ∀ {l : List Buffer}, (∀ s ∈ l, (dataChunkOf s).isSome) →
      scanPartsWav l = .ok (l.map wavPartOf)
  | [], _ => rfl
  | s :: rest, h => by
    have hs := h s (List.mem_cons_self s rest)
    rcases hd : dataChunkOf s with _ | ⟨st, sz⟩
    · rw [hd] at hs
      simp at hs
    · unfold scanPartsWav
      rw [hd, scanPartsWav_ok (fun t ht => h t (List.mem_cons_of_mem s ht))]
      simp [wavPartOf, hd]

theorem wavPartOf_size (s : Buffer) : (wavPartOf s).2.2 = dataSizeOf s := by
  unfold wavPartOf dataSizeOf
  rcases dataChunkOf s with _ | ⟨st, sz⟩ <;> rfl

theorem wavPartOf_fst (s : Buffer) : (wavPartOf s).1 = s := by
  unfold wavPartOf
  rcases dataChunkOf s with _ | ⟨st, sz⟩ <;> rfl

theorem wavBodyBuffer_map (gapBuf : Buffer) :
    ∀ l : List Buffer, wavBodyBuffer gapBuf (l.map wavPartOf) = wavPayloadConcat gapBuf l
  | [] => rfl
  | [s] => by
    show readBytesBuf (wavPartOf s).1 (wavPartOf s).2.1 (wavPartOf s).2.2 = payloadOf s
    unfold wavPartOf payloadOf
    rcases dataChunkOf s with _ | ⟨st, sz⟩
    · simp [readBytesBuf]
    · rfl
  | s :: s2 :: rest => by
    show readBytesBuf (wavPartOf s).1 (wavPartOf s).2.1 (wavPartOf s).2.2 ++ gapBuf ++
        wavBodyBuffer gapBuf ((s2 :: rest).map wavPartOf) = _
    rw [wavBodyBuffer_map gapBuf (s2 :: rest)]
    show _ = payloadOf s ++ gapBuf ++ wavPayloadConcat gapBuf (s2 :: rest)
    congr 2
    unfold wavPartOf payloadOf
    rcases dataChunkOf s with _ | ⟨st, sz⟩
    · simp [readBytesBuf]
    · rfl

theorem wavTotalData_map (gapBytes : Nat) :
    ∀ l : List Buffer, wavTotalData gapBytes (l.map wavPartOf) = wavTotalOf l gapBytes
  | [] => by simp [wavTotalData, wavTotalOf]
  | [s] => by
    show (wavPartOf s).2.2 = _
    simp [wavTotalOf, wavPartOf_size]
  | s :: s2 :: rest => by
    show (wavPartOf s).2.2 + gapBytes + wavTotalData gapBytes ((s2 :: rest).map wavPartOf) = _
    rw [wavTotalData_map gapBytes (s2 :: rest), wavPartOf_size]
    simp only [wavTotalOf, List.map_cons, List.sum_cons, List.length_cons]
    have h1 : rest.length + 1 + 1 - 1 = rest.length + 1 := by omega
    have h2 : rest.length + 1 - 1 = rest.length := by omega
    rw [h1, h2]
    ring

/-- Characterization of the shared stitchWav pipeline under homogeneity. -/
theorem stitchWavCore_ok (s0 : Buffer) (rest : List Buffer) (g : Option Nat)
    (info0 : WavProbeInfo)
    (h0 : probe s0 = .ok (.wav info0))
    (hall : ∀ s ∈ s0 :: rest, ∃ i : WavProbeInfo, probe s = .ok (.wav i) ∧
      i.sampleRate = info0.sampleRate ∧ i.channels = info0.channels ∧
      i.bitsPerSample = info0.bitsPerSample)
    (hd : ∀ s ∈ s0 :: rest, (dataChunkOf s).isSome) :
    stitchWavCore (s0 :: rest) g =
      .ok (info0, g.getD 0, wavBytesPerMs info0, (s0 :: rest).map wavPartOf) := by
  simp only [stitchWavCore, h0, validateWav_ok hall, scanPartsWav_ok hd]

/-! ## Reading the canonical header back -/

theorem wavHeaderBytes_length (T : Nat) (info : WavProbeInfo) :
    (wavHeaderBytes T info).length = 44 := by
  simp [wavHeaderBytes, u16le, u32le, magicRIFF, magicWAVE, magicFMT, magicDATA]

theorem hdrRead_riff (T : Nat) (info : WavProbeInfo) (rest : Buffer) :
    asciiSlice (wavHeaderBytes T info ++ rest) 0 4 = magicRIFF := by
  simp [wavHeaderBytes, u16le, u32le, asciiSlice, magicRIFF, magicWAVE, magicFMT, magicDATA]

theorem hdrRead_wave (T : Nat) (info : WavProbeInfo) (rest : Buffer) :
    asciiSlice (wavHeaderBytes T info ++ rest) 8 12 = magicWAVE := by
  simp [wavHeaderBytes, u16le, u32le, asciiSlice, magicRIFF, magicWAVE, magicFMT, magicDATA]

theorem hdrRead_fmtTag (T : Nat) (info : WavProbeInfo) (rest : Buffer) :
    asciiSlice (wavHeaderBytes T info ++ rest) 12 16 = magicFMT := by
  simp [wavHeaderBytes, u16le, u32le, asciiSlice, magicRIFF, magicWAVE, magicFMT, magicDATA]

theorem hdrRead_fmtSize (T : Nat) (info : WavProbeInfo) (rest : Buffer) :
    readUInt32LE (wavHeaderBytes T info ++ rest) 16 = 16 := by
  simp [wavHeaderBytes, u16le, u32le, readUInt32LE, byteAt,
    magicRIFF, magicWAVE, magicFMT, magicDATA]

theorem hdrRead_riffSize (T : Nat) (info : WavProbeInfo) (rest : Buffer) :
    readUInt32LE (wavHeaderBytes T info ++ rest) 4 = (36 + T) % 4294967296 := by
  simp only [wavHeaderBytes, u16le, u32le, readUInt32LE, byteAt,
    magicRIFF, magicWAVE, magicFMT, magicDATA, List.cons_append, List.nil_append,
    List.getD_cons_succ, List.getD_cons_zero]
  omega

theorem hdrRead_audioFormat (T : Nat) (info : WavProbeInfo) (rest : Buffer) :
    readUInt16LE (wavHeaderBytes T info ++ rest) 20 = 1 := by
  simp [wavHeaderBytes, u16le, u32le, readUInt16LE, byteAt,
    magicRIFF, magicWAVE, magicFMT, magicDATA]

theorem hdrRead_channels (T : Nat) (info : WavProbeInfo) (rest : Buffer) :
    readUInt16LE (wavHeaderBytes T info ++ rest) 22 = info.channels % 65536 := by
  simp only [wavHeaderBytes, u16le, u32le, readUInt16LE, byteAt,
    magicRIFF, magicWAVE, magicFMT, magicDATA, List.cons_append, List.nil_append,
    List.getD_cons_succ, List.getD_cons_zero]
  omega

theorem hdrRead_sampleRate (T : Nat) (info : WavProbeInfo) (rest : Buffer) :
    readUInt32LE (wavHeaderBytes T info ++ rest) 24 = info.sampleRate % 4294967296 := by
  simp only [wavHeaderBytes, u16le, u32le, readUInt32LE, byteAt,
    magicRIFF, magicWAVE, magicFMT, magicDATA, List.cons_append, List.nil_append,
    List.getD_cons_succ, List.getD_cons_zero]
  omega

theorem hdrRead_bits (T : Nat) (info : WavProbeInfo) (rest : Buffer) :
    readUInt16LE (wavHeaderBytes T info ++ rest) 34 = info.bitsPerSample % 65536 := by
  simp only [wavHeaderBytes, u16le, u32le, readUInt16LE, byteAt,
    magicRIFF, magicWAVE, magicFMT, magicDATA, List.cons_append, List.nil_append,
    List.getD_cons_succ, List.getD_cons_zero]
  omega

theorem hdrRead_dataTag (T : Nat) (info : WavProbeInfo) (rest : Buffer) :
    asciiSlice (wavHeaderBytes T info ++ rest) 36 40 = magicDATA := by
  simp [wavHeaderBytes, u16le, u32le, asciiSlice, magicRIFF, magicWAVE, magicFMT, magicDATA]

theorem hdrRead_dataSize (T : Nat) (info : WavProbeInfo) (rest : Buffer) :
    readUInt32LE (wavHeaderBytes T info ++ rest) 40 = T % 4294967296 := by
  simp only [wavHeaderBytes, u16le, u32le, readUInt32LE, byteAt,
    magicRIFF, magicWAVE, magicFMT, magicDATA, List.cons_append, List.nil_append,
    List.getD_cons_succ, List.getD_cons_zero]
  omega

/-! ## Unfolding lemmas for the chunk walk -/

theorem wavChunkWalk_exit {buf : Buffer} {offset : Nat}
    (h : ¬ offset + 8 ≤ buf.length) (fuel : Nat) (st : WavScan) :
    wavChunkWalk buf fuel offset st = .ok (some st) := by
  cases fuel with
  | zero => rfl
  | succ f => simp [wavChunkWalk, h]

theorem wavChunkWalk_step_fmt (buf : Buffer) (fuel offset : Nat) (st : WavScan)
    (hfuel : 0 < fuel) (hg : offset + 8 ≤ buf.length) (hr : offset + 24 ≤ buf.length)
    (hid : asciiSlice buf offset (offset + 4) = magicFMT)
    (haf : readUInt16LE buf (offset + 8) = 1) :
    wavChunkWalk buf fuel offset st =
      wavChunkWalk buf (fuel - 1) (offset + 8 + readUInt32LE buf (offset + 4))
        ⟨true, st.dataBytes, readUInt32LE buf (offset + 12), readUInt16LE buf (offset + 10),
         readUInt16LE buf (offset + 22)⟩ := by
  obtain ⟨f, rfl⟩ : ∃ f, fuel = f + 1 := ⟨fuel - 1, by omega⟩
  have hr2 : ¬ (buf.length < offset + 24) := by omega
  simp [wavChunkWalk, hg, hid, haf, hr2]

theorem wavChunkWalk_step_data (buf : Buffer) (fuel offset : Nat) (st : WavScan)
    (hfuel : 0 < fuel) (hg : offset + 8 ≤ buf.length)
    (hid : asciiSlice buf offset (offset + 4) = magicDATA) :
    wavChunkWalk buf fuel offset st =
      wavChunkWalk buf (fuel - 1) (offset + 8 + readUInt32LE buf (offset + 4))
        { st with dataBytes := some (readUInt32LE buf (offset + 4)) } := by
  obtain ⟨f, rfl⟩ : ∃ f, fuel = f + 1 := ⟨fuel - 1, by omega⟩
  have hnf : asciiSlice buf offset (offset + 4) ≠ magicFMT := by rw [hid]; decide
  simp [wavChunkWalk, hg, hid, hnf]
  intro hc
  exact absurd hc (by decide)

/-- Walking the chunks of a canonical header followed by at most T payload
bytes: the fmt chunk is read at offset 12, the data chunk at offset 36, and
the walk then leaves the window. -/
theorem wavChunkWalk_canonical (T : Nat) (info : WavProbeInfo) (B : Buffer)
    (hch2 : info.channels < 65536) (hsr2 : info.sampleRate < 4294967296)
    (hbit2 : info.bitsPerSample < 65536) (hT : 36 + T < 4294967296) (hLB : B.length ≤ T) :
    wavChunkWalk (wavHeaderBytes T info ++ B) (wavHeaderBytes T info ++ B).length 12
      ⟨false, none, 0, 0, 0⟩ =
      .ok (some ⟨true, some T, info.sampleRate, info.channels, info.bitsPerSample⟩) := by
  have hL : (wavHeaderBytes T info ++ B).length = 44 + B.length := by
    simp [wavHeaderBytes_length]
  have hfmt : asciiSlice (wavHeaderBytes T info ++ B) 12 (12 + 4) = magicFMT :=
    hdrRead_fmtTag T info B
  have haf : readUInt16LE (wavHeaderBytes T info ++ B) (12 + 8) = 1 :=
    hdrRead_audioFormat T info B
  have hsz : readUInt32LE (wavHeaderBytes T info ++ B) (12 + 4) = 16 :=
    hdrRead_fmtSize T info B
  refine (wavChunkWalk_step_fmt _ _ 12 ⟨false, none, 0, 0, 0⟩ (by omega) (by omega) (by omega)
    hfmt haf).trans ?_
  rw [hsz, show (12 : Nat) + 8 + 16 = 36 from by norm_num]
  have hdat : asciiSlice (wavHeaderBytes T info ++ B) 36 (36 + 4) = magicDATA :=
    hdrRead_dataTag T info B
  refine (wavChunkWalk_step_data _ _ 36 _ (by omega) (by omega) hdat).trans ?_
  have hds : readUInt32LE (wavHeaderBytes T info ++ B) (36 + 4) = T := by
    have h := hdrRead_dataSize T info B
    rw [Nat.mod_eq_of_lt (by omega)] at h
    exact h
  rw [hds, show (36 : Nat) + 8 + T = 44 + T from by omega]
  rw [wavChunkWalk_exit (by omega)]
  have e1 : readUInt32LE (wavHeaderBytes T info ++ B) (12 + 12) = info.sampleRate := by
    have h := hdrRead_sampleRate T info B
    rw [Nat.mod_eq_of_lt hsr2] at h
    exact h
  have e2 : readUInt16LE (wavHeaderBytes T info ++ B) (12 + 10) = info.channels := by
    have h := hdrRead_channels T info B
    rw [Nat.mod_eq_of_lt hch2] at h
    exact h
  have e3 : readUInt16LE (wavHeaderBytes T info ++ B) (12 + 22) = info.bitsPerSample := by
    have h := hdrRead_bits T info B
    rw [Nat.mod_eq_of_lt hbit2] at h
    exact h
  simp [e1, e2, e3]

/-- Probing the output of the WAV engine: a canonical header followed by at
most totalData payload bytes parses back to the same parameters and the
written data size. -/
theorem probe_wavOutput {T : Nat} {info : WavProbeInfo} {body : Buffer}
    (hch : 0 < info.channels) (hch2 : info.channels < 65536)
    (hsr : 0 < info.sampleRate) (hsr2 : info.sampleRate < 4294967296)
    (hbit : 0 < info.bitsPerSample) (hbit2 : info.bitsPerSample < 65536)
    (hT : 36 + T < 4294967296)
    (hbody : body.length ≤ T) :
    probe (wavHeaderBytes T info ++ body) =
      .ok (.wav ⟨info.sampleRate, info.channels, info.bitsPerSample, some T⟩) := by
  have hlen : (wavHeaderBytes T info).length = 44 := wavHeaderBytes_length T info
  have hhead : (wavHeaderBytes T info ++ body).take 8192 =
      wavHeaderBytes T info ++ body.take 8148 := by
    rw [List.take_append_eq_append_take, List.take_of_length_le (by omega), hlen]
  apply probe_of_parseWav
  rw [hhead]
  have hLB : (body.take 8148).length ≤ T := by
    have := List.length_take 8148 body
    omega
  have hL : (wavHeaderBytes T info ++ body.take 8148).length = 44 + (body.take 8148).length := by
    simp [hlen]
  unfold parseWavHeader
  rw [if_neg (by omega), if_neg (by rw [hdrRead_riff]; simp),
      if_neg (by rw [hdrRead_wave]; simp)]
  rw [wavChunkWalk_canonical T info (body.take 8148) hch2 hsr2 hbit2 hT hLB]
  simp [hsr.ne', hch.ne', hbit.ne']

/-! ## Positivity of successful probe results -/

theorem parseWavHeader_pos {buf : Buffer} {w : WavProbeInfo}
    (h : parseWavHeader buf = .ok (some w)) :
    0 < w.sampleRate ∧ 0 < w.channels ∧ 0 < w.bitsPerSample := by
  unfold parseWavHeader at h
  split at h
  · exact absurd h (by simp)
  · split at h
    · exact absurd h (by simp)
    · split at h
      · exact absurd h (by simp)
      · split at h
        · exact absurd h (by simp)
        · exact absurd h (by simp)
        · split at h
          · exact absurd h (by simp)
          · rename_i st hcond
            push_neg at hcond
            simp only [Except.ok.injEq, Option.some.injEq] at h
            subst h
            simp only []
            omega

theorem parseMp3Header_pos {buf : Buffer} {start : Nat} {m : Mp3ProbeInfo}
    (h : parseMp3Header buf start = some m) : 0 < m.sampleRate ∧ 0 < m.channels := by
  obtain ⟨i, -, -, hv, hdec, -⟩ := parseMp3Header_elim h
  subst hdec
  unfold frameValidAt at hv
  simp only [Bool.and_eq_true, bne_iff_ne, ne_eq, beq_iff_eq] at hv
  have hsr3 : ¬ ((readUInt8 buf (i + 2) >>> 2) &&& 3 = 3) := hv.2
  constructor
  · show 0 < (if (readUInt8 buf (i + 1) >>> 3) &&& 3 = 3 then [44100, 48000, 32000]
      else [22050, 24000, 16000]).getD ((readUInt8 buf (i + 2) >>> 2) &&& 3) 0
    have hle : (readUInt8 buf (i + 2) >>> 2) &&& 3 ≤ 3 := Nat.and_le_right
    have h3 : (readUInt8 buf (i + 2) >>> 2) &&& 3 < 3 := by omega
    interval_cases h : (readUInt8 buf (i + 2) >>> 2) &&& 3 <;> split <;> norm_num
  · show 0 < if (readUInt8 buf (i + 3) >>> 6) &&& 3 = 3 then 1 else 2
    split <;> norm_num

/-! ## Behaviour of the bounded copy loop of WAV file mode -/

theorem copyStep_progress (src : Buffer) (pos rem : Nat) (h0 : 0 < rem)
    (hinv : pos + rem ≤ src.length) :
    (copyStep src pos rem).2.1 < rem ∧ 0 < (copyStep src pos rem).2.2.length := by
  have hcl : (readBytesBuf src pos (min 65536 rem)).length = min 65536 rem :=
    readBytesBuf_length (by omega)
  simp only [copyStep, hcl]
  omega

theorem copyStep_stall (src : Buffer) (pos rem : Nat) (h : src.length ≤ pos) :
    (copyStep src pos rem).2.1 = rem ∧ (copyStep src pos rem).2.2 = [] := by
  have hdrop : src.drop pos = [] := List.drop_eq_nil_of_le h
  simp [copyStep, readBytesBuf, hdrop]

theorem copyRun_complete (src : Buffer) :
    ∀ (fuel start len : Nat), len ≤ fuel → start + len ≤ src.length →
      copyRun src fuel start len = (src.drop start).take len := by
  intro fuel
  induction fuel with
  | zero =>
    intro start len h1 h2
    have h0 : len = 0 := by omega
    subst h0
    simp [copyRun]
  | succ f ih =>
    intro start len h1 h2
    by_cases h0 : len = 0
    · subst h0
      simp [copyRun]
    · have hcl : (readBytesBuf src start (min 65536 len)).length = min 65536 len :=
        readBytesBuf_length (by omega)
      simp only [copyRun, h0, if_false, copyStep, hcl]
      rw [ih (start + min 65536 len) (len - min 65536 len) (by omega) (by omega)]
      conv_rhs => rw [show len = min 65536 len + (len - min 65536 len) from by omega,
        List.take_add]
      rw [List.drop_drop]
      simp [readBytesBuf]

/-! ## The claim theorems -/

/-- C6: the buffer-mode engines are pure functions of their inputs: two calls
with byte-for-byte identical sources and field-for-field identical options
produce byte-for-byte identical outputs. -/
theorem c6_deterministic (s1 s2 : List Buffer) (g1 g2 : Option Nat)
    (cat1 cat2 : SilenceCatalog) (t1 t2 : List Buffer) (o1 o2 : StitchMp3Opts)
    (hs : s1 = s2) (hg : g1 = g2) (hc : cat1 = cat2) (ht : t1 = t2) (ho : o1 = o2) :
    stitchWavBuffer s1 g1 = stitchWavBuffer s2 g2 ∧
      stitchMp3Buffer cat1 t1 o1 = stitchMp3Buffer cat2 t2 o2 := by
  subst hs hg hc ht ho
  exact ⟨rfl, rfl⟩

theorem c6_witness :
    stitchWavBuffer [wavSampleA] (some 0) = stitchWavBuffer [wavSampleA] (some 0) ∧
      stitchMp3Buffer emptyCatalog [mp3A] ⟨some 0, none, none, none⟩ =
        stitchMp3Buffer emptyCatalog [mp3A] ⟨some 0, none, none, none⟩ :=
  c6_deterministic [wavSampleA] [wavSampleA] (some 0) (some 0) emptyCatalog emptyCatalog
    [mp3A] [mp3A] ⟨some 0, none, none, none⟩ ⟨some 0, none, none, none⟩ rfl rfl rfl rfl rfl

/-- C8: a successful probe always reports a positive sample rate and a positive
channel count, fully populated for its variant (the WAV variant also carries a
positive bits-per-sample). -/
theorem c8_probe_populated (buf : Buffer) (info : ProbeInfo) (h : probe buf = .ok info) :
    0 < sampleRateOf info ∧ 0 < channelsOf info ∧ bitsPopulated info := by
  cases info with
  | wav w =>
    have hw := probe_ok_wav_elim h
    obtain ⟨h1, h2, h3⟩ := parseWavHeader_pos hw
    exact ⟨h1, h2, h3⟩
  | mp3 m =>
    obtain ⟨-, hm⟩ := probe_ok_mp3_elim h
    obtain ⟨h1, h2⟩ := parseMp3Header_pos hm
    exact ⟨h1, h2, trivial⟩

theorem c8_witness :
    0 < sampleRateOf (.mp3 ⟨44100, 2, some 128, false, 0⟩) ∧
      0 < channelsOf (.mp3 ⟨44100, 2, some 128, false, 0⟩) ∧
      bitsPopulated (.mp3 ⟨44100, 2, some 128, false, 0⟩) :=
  c8_probe_populated mp3A (.mp3 ⟨44100, 2, some 128, false, 0⟩) rfl

/-- C9: the file-mode copy loop of stitchWav terminates when the declared data
size fits inside the source: every iteration then reads at least one byte and
strictly decreases the remaining count, and fuel equal to the declared length
suffices to copy exactly the payload. When the position has passed the end of
the source, a read returns zero bytes and the remaining count does not change,
so the loop cannot make progress. -/
theorem c9_copy_loop_termination :
    (∀ (src : Buffer) (fuel start len : Nat), len ≤ fuel → start + len ≤ src.length →
      copyRun src fuel start len = (src.drop start).take len) ∧
    (∀ (src : Buffer) (pos rem : Nat), 0 < rem → pos + rem ≤ src.length →
      (copyStep src pos rem).2.1 < rem ∧ 0 < (copyStep src pos rem).2.2.length) ∧
    (∀ (src : Buffer) (pos rem : Nat), src.length ≤ pos →
      (copyStep src pos rem).2.1 = rem ∧ (copyStep src pos rem).2.2 = []) :=
  ⟨copyRun_complete, copyStep_progress, copyStep_stall⟩

theorem c9_witness :
    copyRun [5, 6, 7] 2 1 2 = List.take 2 (List.drop 1 [5, 6, 7]) ∧
      ((copyStep [5, 6, 7] 1 2).2.1 < 2 ∧ 0 < (copyStep [5, 6, 7] 1 2).2.2.length) ∧
      ((copyStep [5, 6, 7] 3 9).2.1 = 9 ∧ (copyStep [5, 6, 7] 3 9).2.2 = []) :=
  ⟨c9_copy_loop_termination.1 [5, 6, 7] 2 1 2 (by decide) (by decide),
   c9_copy_loop_termination.2.1 [5, 6, 7] 1 2 (by decide) (by decide),
   c9_copy_loop_termination.2.2 [5, 6, 7] 3 9 (by decide)⟩

/-- C10: when no silence override is supplied and the probed first source has
no bitrate, the resolver looks the asset up under the defaulted 128 kbps key
instead of failing, and every channel count other than 1 maps to the stereo
asset: the asset-not-found error depends only on that defaulted key. -/
theorem c10_silence_default (catalog : SilenceCatalog) (info : Mp3ProbeInfo)
    (opts : StitchMp3Opts) (hb : info.bitrateKbps = none) (hs : opts.silence = none) :
    loadSilenceAsset catalog info opts =
      (match catalog info.sampleRate
          (if info.channels = 1 then ChannelMode.mono else ChannelMode.stereo) 128 with
        | some b => .ok b
        | none => .error silenceNotFoundMsg) ∧
    (info.channels ≠ 1 →
      loadSilenceAsset catalog info opts =
        (match catalog info.sampleRate ChannelMode.stereo 128 with
          | some b => .ok b
          | none => .error silenceNotFoundMsg)) := by
  constructor
  · simp [loadSilenceAsset, hs, hb]
  · intro hch
    simp [loadSilenceAsset, hs, hb, hch]

/-- C4: a sample-rate, channel or bits-per-sample mismatch across WAV sources,
or a sample-rate, channel or bitrate mismatch across MP3 sources, makes the
respective engine fail with its parameter-mismatch error, in buffer mode and
in file mode alike, before any output bytes are produced. -/
theorem c4_parameter_mismatch :
    (∀ (s0 : Buffer) (rest : List Buffer) (g : Option Nat) (info0 : WavProbeInfo),
      probe s0 = .ok (.wav info0) →
      (∀ s ∈ s0 :: rest, ∃ i : WavProbeInfo, probe s = .ok (.wav i)) →
      (∃ s ∈ s0 :: rest, ∃ i : WavProbeInfo, probe s = .ok (.wav i) ∧
        (i.sampleRate ≠ info0.sampleRate ∨ i.channels ≠ info0.channels ∨
         i.bitsPerSample ≠ info0.bitsPerSample)) →
      stitchWavBuffer (s0 :: rest) g = .error wavParamMismatchMsg ∧
        stitchWavFile (s0 :: rest) g = .error wavParamMismatchMsg) ∧
    (∀ (catalog : SilenceCatalog) (s0 : Buffer) (rest : List Buffer) (opts : StitchMp3Opts)
        (info0 : Mp3ProbeInfo),
      probe s0 = .ok (.mp3 info0) →
      (∀ s ∈ rest, ∃ m : Mp3ProbeInfo, probe s = .ok (.mp3 m)) →
      (∃ s ∈ rest, ∃ m : Mp3ProbeInfo, probe s = .ok (.mp3 m) ∧
        (m.sampleRate ≠ info0.sampleRate ∨ m.channels ≠ info0.channels ∨
         m.bitrateKbps ≠ info0.bitrateKbps)) →
      ∃ e, (e = mp3MismatchMsg ∨ e = mp3BitrateMismatchMsg) ∧
        stitchMp3Buffer catalog (s0 :: rest) opts = .error e ∧
        stitchMp3File catalog (s0 :: rest) opts = .error e) := by
  constructor
  · intro s0 rest g info0 h0 hall hdiff
    have hval : validateWav info0 (s0 :: rest) = .error wavParamMismatchMsg :=
      validateWav_mismatch hall hdiff
    have hcore : stitchWavCore (s0 :: rest) g = .error wavParamMismatchMsg := by
      simp only [stitchWavCore, h0, hval]
    constructor
    · simp only [stitchWavBuffer, hcore]
    · simp only [stitchWavFile, hcore]
  · intro catalog s0 rest opts info0 h0 hall hdiff
    rcases validateMp3_mismatch hall hdiff with hval | hval
    · refine ⟨mp3MismatchMsg, Or.inl rfl, ?_, ?_⟩ <;>
        · simp only [stitchMp3Buffer, stitchMp3File, stitchMp3Parts, h0, hval]
          rfl
    · refine ⟨mp3BitrateMismatchMsg, Or.inr rfl, ?_, ?_⟩ <;>
        · simp only [stitchMp3Buffer, stitchMp3File, stitchMp3Parts, h0, hval]
          rfl

theorem c4_witness :
    (stitchWavBuffer [wavSampleA, wavSampleB] (some 0) = .error wavParamMismatchMsg ∧
      stitchWavFile [wavSampleA, wavSampleB] (some 0) = .error wavParamMismatchMsg) ∧
    (∃ e, (e = mp3MismatchMsg ∨ e = mp3BitrateMismatchMsg) ∧
      stitchMp3Buffer emptyCatalog [mp3A, mp3B] ⟨some 0, none, none, none⟩ = .error e ∧
      stitchMp3File emptyCatalog [mp3A, mp3B] ⟨some 0, none, none, none⟩ = .error e) :=
  ⟨c4_parameter_mismatch.1 wavSampleA [wavSampleB] (some 0) ⟨44100, 1, 16, some 4⟩ rfl
      (by
        intro s hs
        rcases List.mem_cons.mp hs with rfl | hs'
        · exact ⟨⟨44100, 1, 16, some 4⟩, rfl⟩
        · rcases List.mem_cons.mp hs' with rfl | hs''
          · exact ⟨⟨48000, 1, 16, some 4⟩, rfl⟩
          · exact absurd hs'' (by simp))
      ⟨wavSampleB, by simp, ⟨48000, 1, 16, some 4⟩, rfl, by norm_num⟩,
   c4_parameter_mismatch.2 emptyCatalog mp3A [mp3B] ⟨some 0, none, none, none⟩
      ⟨44100, 2, some 128, false, 0⟩ rfl
      (by
        intro s hs
        rcases List.mem_cons.mp hs with rfl | hs'
        · exact ⟨⟨44100, 1, some 128, false, 0⟩, rfl⟩
        · exact absurd hs' (by simp))
      ⟨mp3B, by simp, ⟨44100, 1, some 128, false, 0⟩, rfl, by norm_num⟩⟩

/-! ## The MP3 per-source loop under homogeneity -/

theorem mp3Loop_run (catalog : SilenceCatalog) (info0 : Mp3ProbeInfo) (keepFirst : Bool)
    (gapMs : Nat) (rounding : GapRounding) (opts : StitchMp3Opts) (sil : Buffer)
    (hsil : gapMs = 0 ∨ loadSilenceAsset catalog info0 opts = .ok sil)
    (isFirst : Bool) (sources : List Buffer)
    (h : ∀ s ∈ sources, (mp3FrameOffsetOf s).isSome) :
    mp3Loop catalog info0 keepFirst gapMs rounding opts isFirst sources =
      .ok (mp3ExpectedParts info0 keepFirst gapMs rounding sil isFirst sources) := by
  induction sources generalizing isFirst with
  | nil => rfl
  | cons s rest ih =>
    obtain ⟨off, hoff⟩ := Option.isSome_iff_exists.mp (h s (List.mem_cons_self s rest))
    have hsync : mp3SyncOffsetOf s = off := by simp [mp3SyncOffsetOf, hoff]
    have hrest : ∀ t ∈ rest, (mp3FrameOffsetOf t).isSome :=
      fun t ht => h t (List.mem_cons_of_mem s ht)
    cases rest with
    | nil =>
      simp only [mp3Loop, hoff, mp3ExpectedParts, hsync]
      rw [readBytesBuf_to_end]
    | cons r rs =>
      have ihr := ih false hrest
      by_cases hgap : gapMs > 0
      · rcases hsil with h0 | hload
        · omega
        · simp only [mp3Loop, hoff, hgap, if_true, hload, ihr, mp3ExpectedParts, hsync]
          rw [readBytesBuf_to_end]
      · simp only [mp3Loop, hoff, hgap, if_false, ihr, mp3ExpectedParts, hsync]
        rw [readBytesBuf_to_end]
        simp

theorem mp3ExpectedParts_nogap_notfirst (info : Mp3ProbeInfo) (keepFirst : Bool)
    (rounding : GapRounding) (sil : Buffer) :
    ∀ l : List Buffer,
      (mp3ExpectedParts info keepFirst 0 rounding sil false l).flatten =
        (l.map (fun s => s.drop (mp3SyncOffsetOf s))).flatten
  | [] => rfl
  | s :: rest => by
    cases rest with
    | nil => simp [mp3ExpectedParts]
    | cons r rs =>
      rw [show mp3ExpectedParts info keepFirst 0 rounding sil false (s :: r :: rs) =
          (s.drop (mp3SyncOffsetOf s)) ::
            mp3ExpectedParts info keepFirst 0 rounding sil false (r :: rs) from by
        simp [mp3ExpectedParts]]
      simp only [List.flatten_cons, List.map_cons]
      rw [mp3ExpectedParts_nogap_notfirst info keepFirst rounding sil (r :: rs)]
      simp

theorem mp3ExpectedParts_nogap_first (info : Mp3ProbeInfo) (rounding : GapRounding)
    (sil : Buffer) (s0 : Buffer) (rest : List Buffer) :
    (mp3ExpectedParts info true 0 rounding sil true (s0 :: rest)).flatten =
      s0 ++ (rest.map (fun s => s.drop (mp3SyncOffsetOf s))).flatten := by
  cases rest with
  | nil => simp [mp3ExpectedParts]
  | cons r rs =>
    rw [show mp3ExpectedParts info true 0 rounding sil true (s0 :: r :: rs) =
        s0 :: mp3ExpectedParts info true 0 rounding sil false (r :: rs) from by
      simp [mp3ExpectedParts]]
    simp only [List.flatten_cons]
    rw [mp3ExpectedParts_nogap_notfirst info true rounding sil (r :: rs)]

/-- C2: with no gap and keepFirstId3 left at its default true, stitchMp3 in
buffer mode returns exactly the full first source followed by, for each
subsequent source in order, its bytes from the first frame-sync offset found
after its ID3 skip, to end of source. -/
theorem c2_mp3_concat (catalog : SilenceCatalog) (s0 : Buffer) (rest : List Buffer)
    (opts : StitchMp3Opts) (info0 : Mp3ProbeInfo)
    (h0 : probe s0 = .ok (.mp3 info0))
    (hall : ∀ s ∈ rest, ∃ m : Mp3ProbeInfo, probe s = .ok (.mp3 m) ∧
      m.sampleRate = info0.sampleRate ∧ m.channels = info0.channels ∧
      m.bitrateKbps = info0.bitrateKbps)
    (hg : opts.gapMs.getD 0 = 0) (hk : opts.keepFirstId3.getD true = true) :
    stitchMp3Buffer catalog (s0 :: rest) opts =
      .ok (s0 ++ (rest.map (fun s => s.drop (mp3SyncOffsetOf s))).flatten) := by
  have hval : validateMp3 info0 rest = .ok () := validateMp3_ok hall
  have hsync : ∀ s ∈ s0 :: rest, (mp3FrameOffsetOf s).isSome := by
    intro s hs
    rcases List.mem_cons.mp hs with rfl | hs'
    · exact probe_mp3_sync h0
    · obtain ⟨m, hm, -⟩ := hall s hs'
      exact probe_mp3_sync hm
  have hrun := mp3Loop_run catalog info0 (opts.keepFirstId3.getD true) (opts.gapMs.getD 0)
    (opts.gapRounding.getD .nearest) opts [] (Or.inl hg) true (s0 :: rest) hsync
  rw [hg, hk] at hrun
  simp only [stitchMp3Buffer, stitchMp3Parts, h0, hval, hg, hk]
  rw [hrun]
  simp only [Except.map]
  rw [mp3ExpectedParts_nogap_first]

/-- C3: for every positive gap with a caller-supplied silence override, the
engine emits between consecutive sources exactly the buffers described by
gapAppend: nothing when the rounded frame count is not positive, else
max(1, ceil(frames times frameDuration / 100)) whole copies of the asset,
whose total duration meets or exceeds the frame-quantized gap duration. -/
theorem c3_mp3_gap (catalog : SilenceCatalog) (s0 : Buffer) (rest : List Buffer)
    (opts : StitchMp3Opts) (info0 : Mp3ProbeInfo) (g : Nat) (sil : Buffer)
    (h0 : probe s0 = .ok (.mp3 info0))
    (hall : ∀ s ∈ rest, ∃ m : Mp3ProbeInfo, probe s = .ok (.mp3 m) ∧
      m.sampleRate = info0.sampleRate ∧ m.channels = info0.channels ∧
      m.bitrateKbps = info0.bitrateKbps)
    (hg : opts.gapMs = some g) (hgpos : 0 < g)
    (hload : loadSilenceAsset catalog info0 opts = .ok sil) :
    stitchMp3Buffer catalog (s0 :: rest) opts =
      .ok ((mp3ExpectedParts info0 (opts.keepFirstId3.getD true) g
        (opts.gapRounding.getD .nearest) sil true (s0 :: rest)).flatten) ∧
    (∀ r, gapFrames info0 g r ≤ 0 → gapAppend info0 g r sil = []) ∧
    (∀ r, 0 < gapFrames info0 g r →
      gapAppend info0 g r sil = List.replicate (silenceRepeats info0 g r) sil) ∧
    (∀ r, 0 < gapFrames info0 g r →
      (gapFrames info0 g r : ℚ) * estimateFrameDurationMs info0 ≤
        100 * (silenceRepeats info0 g r : ℚ)) := by
  refine ⟨?_, ?_, ?_, ?_⟩
  · have hval : validateMp3 info0 rest = .ok () := validateMp3_ok hall
    have hsync : ∀ s ∈ s0 :: rest, (mp3FrameOffsetOf s).isSome := by
      intro s hs
      rcases List.mem_cons.mp hs with rfl | hs'
      · exact probe_mp3_sync h0
      · obtain ⟨m, hm, -⟩ := hall s hs'
        exact probe_mp3_sync hm
    have hrun := mp3Loop_run catalog info0 (opts.keepFirstId3.getD true) (opts.gapMs.getD 0)
      (opts.gapRounding.getD .nearest) opts sil (Or.inr hload) true (s0 :: rest) hsync
    rw [hg] at hrun
    simp only [Option.getD_some] at hrun
    simp only [stitchMp3Buffer, stitchMp3Parts, h0, hval, hg, Option.getD_some]
    rw [hrun]
    simp only [Except.map]
  · intro r hr
    unfold gapAppend
    rw [if_neg (by omega)]
  · intro r hr
    unfold gapAppend
    rw [if_pos hr]
  · intro r hr
    have hdur : 0 ≤ estimateFrameDurationMs info0 := by
      unfold estimateFrameDurationMs
      positivity
    have hx : 0 ≤ (gapFrames info0 g r : ℚ) * estimateFrameDurationMs info0 := by
      have : (0 : ℚ) ≤ (gapFrames info0 g r : ℚ) := by exact_mod_cast hr.le
      positivity
    set x : ℚ := (gapFrames info0 g r : ℚ) * estimateFrameDurationMs info0 with hxdef
    have hceil : x / 100 ≤ ((max 1 ⌈x / 100⌉ : ℤ) : ℚ) := by
      refine le_trans (Int.le_ceil _) ?_
      exact_mod_cast le_max_right 1 ⌈x / 100⌉
    have hmax : (0 : ℤ) ≤ max 1 ⌈x / 100⌉ := le_trans (by norm_num) (le_max_left _ _)
    have hcast : ((silenceRepeats info0 g r : Nat) : ℚ) = ((max 1 ⌈x / 100⌉ : ℤ) : ℚ) := by
      unfold silenceRepeats
      rw [← hxdef]
      exact_mod_cast congrArg (fun z : ℤ => (z : ℚ)) (Int.toNat_of_nonneg hmax)
    rw [hcast]
    have h100 : (0 : ℚ) < 100 := by norm_num
    calc x = 100 * (x / 100) := by ring
    _ ≤ 100 * ((max 1 ⌈x / 100⌉ : ℤ) : ℚ) := by
        exact mul_le_mul_of_nonneg_left hceil (by norm_num)

/-- parseWavHeader rejects every buffer without the RIFF and WAVE magic,
returning the controlled null before any chunk walk can read out of range. -/
theorem parseWavHeader_none_of_magic {buf : Buffer}
    (h : ¬(asciiSlice buf 0 4 = magicRIFF ∧ asciiSlice buf 8 12 = magicWAVE)) :
    parseWavHeader buf = .ok none := by
  unfold parseWavHeader
  by_cases hlen : buf.length < 44
  · rw [if_pos hlen]
  · rw [if_neg hlen]
    by_cases hr : asciiSlice buf 0 4 = magicRIFF
    · rw [if_neg (by simpa using hr)]
      have hw : asciiSlice buf 8 12 ≠ magicWAVE := fun hw => h ⟨hr, hw⟩
      rw [if_pos hw]
    · rw [if_pos hr]

/-- The only exception the chunk walk can raise is the out-of-range error of
the fmt branch. -/
theorem wavChunkWalk_error {buf : Buffer} :
    ∀ (fuel offset : Nat) (st : WavScan) (e : String),
      wavChunkWalk buf fuel offset st = .error e → e = outOfRangeMsg := by
  intro fuel
  induction fuel with
  | zero =>
    intro offset st e h
    exact absurd h (by simp [wavChunkWalk])
  | succ f ih =>
    intro offset st e h
    unfold wavChunkWalk at h
    split at h
    · split at h
      · split at h
        · exact (Except.error.inj h).symm
        · split at h
          · exact absurd h (by simp)
          · exact ih _ _ _ h
      · split at h
        · exact ih _ _ _ h
        · exact ih _ _ _ h
    · exact absurd h (by simp)

/-- The only exception parseWavHeader can raise is the out-of-range error. -/
theorem parseWavHeader_error {buf : Buffer} {e : String}
    (h : parseWavHeader buf = .error e) : e = outOfRangeMsg := by
  unfold parseWavHeader at h
  split at h
  · exact absurd h (by simp)
  · split at h
    · exact absurd h (by simp)
    · split at h
      · exact absurd h (by simp)
      · split at h
        · rename_i e2 hwalk
          obtain rfl : e2 = e := Except.error.inj h
          exact wavChunkWalk_error _ _ _ _ hwalk
        · exact absurd h (by simp)
        · split at h
          · exact absurd h (by simp)
          · exact absurd h (by simp)

/-- parseMp3Header rejects every buffer with no valid frame header anywhere in
its window. -/
theorem parseMp3Header_none_of_noframe {buf : Buffer} {start : Nat}
    (h : ∀ i, i + 4 ≤ buf.length → frameValidAt buf i = false) :
    parseMp3Header buf start = none := by
  unfold parseMp3Header
  rw [scanFor_none (fun k _ hk => h k (by omega))]
  rfl

/-- C5 (amended): probe fails with its single controlled error string whenever
the head window has neither the RIFF/WAVE magic nor a valid MPEG frame header;
and every probe either fully succeeds, fails with that same single controlled
error, or propagates the out-of-range read exception of a truncated trailing
fmt chunk. A recognized-but-malformed input (such as non-PCM WAV) is rejected
with the same controlled error as an unrecognized one, not with a distinct
MalformedHeader. -/
theorem c5_probe_single_error :
    (∀ buf : Buffer,
      ¬(asciiSlice (buf.take 8192) 0 4 = magicRIFF ∧
        asciiSlice (buf.take 8192) 8 12 = magicWAVE) →
      (∀ i, i + 4 ≤ (buf.take 8192).length → frameValidAt (buf.take 8192) i = false) →
      probe buf = .error unsupportedMsg) ∧
    (∀ buf : Buffer, (∃ info, probe buf = .ok info) ∨
      probe buf = .error unsupportedMsg ∨ probe buf = .error outOfRangeMsg) := by
  constructor
  · intro buf hmagic hframe
    have hw : parseWavHeader (buf.take 8192) = .ok none := parseWavHeader_none_of_magic hmagic
    have hm : parseMp3Header (buf.take 8192) (skipId3Size (buf.take 8192)) = none :=
      parseMp3Header_none_of_noframe hframe
    simp [probe, hw, hm]
  · intro buf
    rcases hw : parseWavHeader (buf.take 8192) with e | (_ | w)
    · right; right
      obtain rfl : e = outOfRangeMsg := parseWavHeader_error hw
      simp [probe, hw]
    · rcases hm : parseMp3Header (buf.take 8192) (skipId3Size (buf.take 8192)) with _ | m
      · right; left
        simp [probe, hw, hm]
      · left
        exact ⟨.mp3 m, by simp [probe, hw, hm]⟩
    · left
      exact ⟨.wav w, by simp [probe, hw]⟩

/-- C5 counterexample: a RIFF/WAVE file with a recognized signature but a
non-PCM format code is rejected with exactly the same error as a buffer with
no recognized signature at all (the minimal prober has no distinct
MalformedHeader error kind); the only other rejection is the out-of-range
exception of a RIFF/WAVE file whose trailing fmt chunk is truncated, which is
a propagated Node range error, again not a MalformedHeader probe error. -/
theorem c5_counterexample :
    asciiSlice nonPcmWav 0 4 = magicRIFF ∧ asciiSlice nonPcmWav 8 12 = magicWAVE ∧
      readUInt16LE nonPcmWav 20 = 2 ∧
      probe nonPcmWav = .error unsupportedMsg ∧
      probe [1, 2, 3] = .error unsupportedMsg ∧
      probe truncatedFmtWav = .error outOfRangeMsg ∧
      outOfRangeMsg ≠ unsupportedMsg :=
  ⟨rfl, rfl, rfl, rfl, rfl, rfl, by decide⟩

theorem c5_witness : probe [1, 2, 3] = .error unsupportedMsg :=
  c5_probe_single_error.1 [1, 2, 3]
    (by intro h; exact absurd h.1 (by decide))
    (by intro i hi; simp at hi)

theorem c10_witness :
    loadSilenceAsset emptyCatalog ⟨44100, 2, none, false, 0⟩ ⟨some 100, none, none, none⟩ =
      (match emptyCatalog 44100
          (if (2 : Nat) = 1 then ChannelMode.mono else ChannelMode.stereo) 128 with
        | some b => .ok b
        | none => .error silenceNotFoundMsg) :=
  (c10_silence_default emptyCatalog ⟨44100, 2, none, false, 0⟩ ⟨some 100, none, none, none⟩
    rfl rfl).1

theorem c2_witness :
    stitchMp3Buffer emptyCatalog [mp3A, mp3A] ⟨some 0, none, none, none⟩ =
      .ok (mp3A ++ ([mp3A].map (fun s => s.drop (mp3SyncOffsetOf s))).flatten) :=
  c2_mp3_concat emptyCatalog mp3A [mp3A] ⟨some 0, none, none, none⟩
    ⟨44100, 2, some 128, false, 0⟩ rfl
    (by
      intro s hs
      rcases List.mem_singleton.mp hs with rfl
      exact ⟨⟨44100, 2, some 128, false, 0⟩, rfl, rfl, rfl, rfl⟩)
    rfl rfl

theorem c3_witness :
    stitchMp3Buffer emptyCatalog [mp3A, mp3A] ⟨some 2000, some [9], none, none⟩ =
      .ok ((mp3ExpectedParts ⟨44100, 2, some 128, false, 0⟩
        ((⟨some 2000, some [9], none, none⟩ : StitchMp3Opts).keepFirstId3.getD true) 2000
        ((⟨some 2000, some [9], none, none⟩ : StitchMp3Opts).gapRounding.getD .nearest) [9]
        true [mp3A, mp3A]).flatten) ∧
    (∀ r, gapFrames ⟨44100, 2, some 128, false, 0⟩ 2000 r ≤ 0 →
      gapAppend ⟨44100, 2, some 128, false, 0⟩ 2000 r [9] = []) ∧
    (∀ r, 0 < gapFrames ⟨44100, 2, some 128, false, 0⟩ 2000 r →
      gapAppend ⟨44100, 2, some 128, false, 0⟩ 2000 r [9] =
        List.replicate (silenceRepeats ⟨44100, 2, some 128, false, 0⟩ 2000 r) [9]) ∧
    (∀ r, 0 < gapFrames ⟨44100, 2, some 128, false, 0⟩ 2000 r →
      (gapFrames ⟨44100, 2, some 128, false, 0⟩ 2000 r : ℚ) *
          estimateFrameDurationMs ⟨44100, 2, some 128, false, 0⟩ ≤
        100 * (silenceRepeats ⟨44100, 2, some 128, false, 0⟩ 2000 r : ℚ)) :=
  c3_mp3_gap emptyCatalog mp3A [mp3A] ⟨some 2000, some [9], none, none⟩
    ⟨44100, 2, some 128, false, 0⟩ 2000 [9] rfl
    (by
      intro s hs
      rcases List.mem_singleton.mp hs with rfl
      exact ⟨⟨44100, 2, some 128, false, 0⟩, rfl, rfl, rfl, rfl⟩)
    rfl (by norm_num) rfl

/-! ## Bounds carried by probe results of byte-valued buffers -/

theorem wavChunkWalk_bounds {buf : Buffer} (hb : ∀ x ∈ buf, x < 256) :
    ∀ (fuel offset : Nat) (st : WavScan),
      st.sampleRate < 4294967296 → st.channels < 65536 → st.bitsPerSample < 65536 →
      ∀ st', wavChunkWalk buf fuel offset st = .ok (some st') →
        st'.sampleRate < 4294967296 ∧ st'.channels < 65536 ∧ st'.bitsPerSample < 65536 := by
  intro fuel
  induction fuel with
  | zero =>
    intro offset st h1 h2 h3 st' h
    obtain rfl : st = st' := by simpa [wavChunkWalk] using h
    exact ⟨h1, h2, h3⟩
  | succ f ih =>
    intro offset st h1 h2 h3 st' h
    unfold wavChunkWalk at h
    by_cases hg : offset + 8 ≤ buf.length
    · rw [if_pos hg] at h
      by_cases hfmt : asciiSlice buf offset (offset + 4) = magicFMT
      · rw [if_pos hfmt] at h
        by_cases hrange : buf.length < offset + 24
        · rw [if_pos hrange] at h
          exact absurd h (by simp)
        · rw [if_neg hrange] at h
          by_cases haf : readUInt16LE buf (offset + 8) ≠ 1
          · rw [if_pos haf] at h
            exact absurd h (by simp)
          · rw [if_neg haf] at h
            exact ih _ _ (readUInt32LE_lt hb _) (readUInt16LE_lt hb _) (readUInt16LE_lt hb _)
              st' h
      · rw [if_neg hfmt] at h
        by_cases hdat : asciiSlice buf offset (offset + 4) = magicDATA
        · rw [if_pos hdat] at h
          exact ih _ _ (by simpa using h1) (by simpa using h2) (by simpa using h3) st' h
        · rw [if_neg hdat] at h
          exact ih _ _ h1 h2 h3 st' h
    · rw [if_neg hg] at h
      obtain rfl : st = st' := by simpa using h
      exact ⟨h1, h2, h3⟩

theorem parseWavHeader_bounds {buf : Buffer} {w : WavProbeInfo}
    (hb : ∀ x ∈ buf, x < 256) (h : parseWavHeader buf = .ok (some w)) :
    w.sampleRate < 4294967296 ∧ w.channels < 65536 ∧ w.bitsPerSample < 65536 := by
  unfold parseWavHeader at h
  split at h
  · exact absurd h (by simp)
  · split at h
    · exact absurd h (by simp)
    · split at h
      · exact absurd h (by simp)
      · split at h
        · exact absurd h (by simp)
        · exact absurd h (by simp)
        · rename_i st hwalk
          split at h
          · exact absurd h (by simp)
          · simp only [Except.ok.injEq, Option.some.injEq] at h
            subst h
            exact wavChunkWalk_bounds hb _ _ _ (by norm_num) (by norm_num) (by norm_num)
              st hwalk

theorem bytes_lt_of_take {s : Buffer} (hb : ∀ x ∈ s, x < 256) (n : Nat) :
    ∀ x ∈ s.take n, x < 256 :=
  fun x hx => hb x ((List.take_sublist n s).subset hx)

/-! ## Assembly of the WAV buffer output -/

theorem payloadOf_length {s : Buffer} (h : WavWellFormed s) :
    (payloadOf s).length = dataSizeOf s := by
  obtain ⟨st, sz, hchunk, hle⟩ := h
  unfold payloadOf dataSizeOf
  rw [hchunk]
  exact readBytesBuf_length hle

theorem wavGapBuf_length (info : WavProbeInfo) (g : Option Nat) :
    (wavGapBuf info g).length = wavGapBytes info g := by
  unfold wavGapBuf wavGapBytes
  split <;> simp

theorem wavPayloadConcat_length (gapBuf : Buffer) :
    ∀ l : List Buffer, (∀ s ∈ l, WavWellFormed s) →
      (wavPayloadConcat gapBuf l).length =
        (l.map dataSizeOf).sum + (l.length - 1) * gapBuf.length
  | [], _ => by simp [wavPayloadConcat]
  | [s], h => by
    simp [wavPayloadConcat, payloadOf_length (h s (List.mem_singleton.mpr rfl))]
  | s :: s2 :: t, h => by
    show (payloadOf s ++ gapBuf ++ wavPayloadConcat gapBuf (s2 :: t)).length = _
    rw [List.length_append, List.length_append,
      wavPayloadConcat_length gapBuf (s2 :: t) (fun u hu => h u (List.mem_cons_of_mem s hu)),
      payloadOf_length (h s (List.mem_cons_self s (s2 :: t)))]
    simp only [List.map_cons, List.sum_cons, List.length_cons]
    have h1 : t.length + 1 + 1 - 1 = t.length + 1 := by omega
    have h2 : t.length + 1 - 1 = t.length := by omega
    rw [h1, h2]
    ring

/-- The full characterization of the WAV engine in buffer mode under
homogeneity and data-chunk availability. -/
theorem stitchWavBuffer_run (s0 : Buffer) (rest : List Buffer) (g : Option Nat)
    (info0 : WavProbeInfo)
    (h0 : probe s0 = .ok (.wav info0))
    (hall : ∀ s ∈ s0 :: rest, ∃ i : WavProbeInfo, probe s = .ok (.wav i) ∧
      i.sampleRate = info0.sampleRate ∧ i.channels = info0.channels ∧
      i.bitsPerSample = info0.bitsPerSample)
    (hd : ∀ s ∈ s0 :: rest, (dataChunkOf s).isSome)
    (hW : wavHeaderWritable (wavTotalOf (s0 :: rest) (wavGapBytes info0 g)) info0) :
    stitchWavBuffer (s0 :: rest) g =
      .ok (wavHeaderBytes (wavTotalOf (s0 :: rest) (wavGapBytes info0 g)) info0 ++
        wavPayloadConcat (wavGapBuf info0 g) (s0 :: rest)) := by
  have hcore := stitchWavCore_ok s0 rest g info0 h0 hall hd
  simp only [stitchWavBuffer, hcore]
  rw [wavTotalData_map, wavBodyBuffer_map]
  unfold wavGapBytes at hW
  unfold wavGapBytes wavGapBuf
  rw [createWavHeader, if_pos hW]

/-- C1 (amended): for homogeneous well-formed WAV sources, whenever every
header write is in the range Node accepts (the wavHeaderWritable hypothesis,
which is exactly the condition under which createWavHeader does not throw),
stitchWav in buffer mode returns the canonical 44-byte header (RIFF size 36
plus total payload, 16-byte PCM fmt subchunk with audio format 1 and the
probed channels, sample rate and bits per sample, data size equal to the total
payload), followed by the payload slices in order with, between consecutive
sources, exactly bytesPerMs * gapMs zero bytes where bytesPerMs =
floor(sampleRate * channels * bitsPerSample / 8000); the total length is
44 + sum of data sizes + (n-1) * bytesPerMs * gapMs. -/
theorem c1_wav_buffer_output (s0 : Buffer) (rest : List Buffer) (g : Option Nat)
    (info0 : WavProbeInfo)
    (h0 : probe s0 = .ok (.wav info0))
    (hall : ∀ s ∈ s0 :: rest, ∃ i : WavProbeInfo, probe s = .ok (.wav i) ∧
      i.sampleRate = info0.sampleRate ∧ i.channels = info0.channels ∧
      i.bitsPerSample = info0.bitsPerSample)
    (hwf : ∀ s ∈ s0 :: rest, WavWellFormed s)
    (hbytes : ∀ s ∈ s0 :: rest, ∀ x ∈ s, x < 256)
    (hW : wavHeaderWritable (wavTotalOf (s0 :: rest) (wavGapBytes info0 g)) info0) :
    stitchWavBuffer (s0 :: rest) g =
      .ok (wavHeaderBytes (wavTotalOf (s0 :: rest) (wavGapBytes info0 g)) info0 ++
        wavPayloadConcat (wavGapBuf info0 g) (s0 :: rest)) ∧
    (wavHeaderBytes (wavTotalOf (s0 :: rest) (wavGapBytes info0 g)) info0 ++
        wavPayloadConcat (wavGapBuf info0 g) (s0 :: rest)).length =
      44 + ((s0 :: rest).map dataSizeOf).sum + rest.length * wavGapBytes info0 g ∧
    wavGapBuf info0 g = List.replicate (wavGapBytes info0 g) 0 ∧
    readUInt32LE (wavHeaderBytes (wavTotalOf (s0 :: rest) (wavGapBytes info0 g)) info0 ++
        wavPayloadConcat (wavGapBuf info0 g) (s0 :: rest)) 4 =
      36 + wavTotalOf (s0 :: rest) (wavGapBytes info0 g) ∧
    readUInt16LE (wavHeaderBytes (wavTotalOf (s0 :: rest) (wavGapBytes info0 g)) info0 ++
        wavPayloadConcat (wavGapBuf info0 g) (s0 :: rest)) 20 = 1 ∧
    readUInt16LE (wavHeaderBytes (wavTotalOf (s0 :: rest) (wavGapBytes info0 g)) info0 ++
        wavPayloadConcat (wavGapBuf info0 g) (s0 :: rest)) 22 = info0.channels ∧
    readUInt32LE (wavHeaderBytes (wavTotalOf (s0 :: rest) (wavGapBytes info0 g)) info0 ++
        wavPayloadConcat (wavGapBuf info0 g) (s0 :: rest)) 24 = info0.sampleRate ∧
    readUInt16LE (wavHeaderBytes (wavTotalOf (s0 :: rest) (wavGapBytes info0 g)) info0 ++
        wavPayloadConcat (wavGapBuf info0 g) (s0 :: rest)) 34 = info0.bitsPerSample ∧
    readUInt32LE (wavHeaderBytes (wavTotalOf (s0 :: rest) (wavGapBytes info0 g)) info0 ++
        wavPayloadConcat (wavGapBuf info0 g) (s0 :: rest)) 40 =
      wavTotalOf (s0 :: rest) (wavGapBytes info0 g) := by
  have hd : ∀ s ∈ s0 :: rest, (dataChunkOf s).isSome := by
    intro s hs
    obtain ⟨st, sz, hchunk, -⟩ := hwf s hs
    simp [hchunk]
  obtain ⟨w1, w2, w3, w4, w5, w6, w7⟩ := hW
  refine ⟨stitchWavBuffer_run s0 rest g info0 h0 hall hd ⟨w1, w2, w3, w4, w5, w6, w7⟩,
    ?_, ?_, ?_, ?_, ?_, ?_, ?_, ?_⟩
  · rw [List.length_append, wavHeaderBytes_length,
      wavPayloadConcat_length (wavGapBuf info0 g) (s0 :: rest) hwf, wavGapBuf_length]
    simp only [List.length_cons]
    rw [show rest.length + 1 - 1 = rest.length from by omega]
    omega
  · unfold wavGapBuf wavGapBytes
    split <;> simp
  · rw [hdrRead_riffSize]
    exact Nat.mod_eq_of_lt (by omega)
  · exact hdrRead_audioFormat _ _ _
  · rw [hdrRead_channels]
    exact Nat.mod_eq_of_lt (by omega)
  · rw [hdrRead_sampleRate]
    exact Nat.mod_eq_of_lt (by omega)
  · rw [hdrRead_bits]
    exact Nat.mod_eq_of_lt (by omega)
  · rw [hdrRead_dataSize]
    exact Nat.mod_eq_of_lt (by omega)

/-! ## Probing the output of the MP3 engine -/

theorem byteAt_eq_getElem {b : Buffer} {i : Nat} (h : i < b.length) : byteAt b i = b[i] := by
  simp [byteAt, List.getD_eq_getElem?_getD, List.getElem?_eq_getElem h]

theorem asciiSlice_firstn_agree {b1 b2 : Buffer} {n : Nat} (h1 : n ≤ b1.length)
    (h2 : n ≤ b2.length) (hb : ∀ k, k < n → byteAt b1 k = byteAt b2 k) :
    asciiSlice b1 0 n = asciiSlice b2 0 n := by
  unfold asciiSlice
  simp only [List.drop_zero]
  apply List.ext_getElem
  · simp
    omega
  · intro i hi1 hi2
    simp only [List.getElem_map, List.getElem_take]
    have hin : i < n := by
      simp [List.length_take] at hi1
      omega
    rw [← byteAt_eq_getElem (by omega), ← byteAt_eq_getElem (by omega), hb i hin]

theorem skipId3Size_agree {b1 b2 : Buffer} (hlen1 : 10 ≤ b1.length) (hlen2 : 10 ≤ b2.length)
    (hb : ∀ k, k < 10 → byteAt b1 k = byteAt b2 k) :
    skipId3Size b1 = skipId3Size b2 := by
  have hsl : asciiSlice b1 0 3 = asciiSlice b2 0 3 :=
    asciiSlice_firstn_agree (by omega) (by omega) (fun k hk => hb k (by omega))
  by_cases h3 : asciiSlice b1 0 3 = magicID3
  · have h3' : asciiSlice b2 0 3 = magicID3 := by rw [← hsl]; exact h3
    unfold skipId3Size
    rw [if_neg (by omega : ¬ (b1.length < 10)),
      if_neg (show ¬ (asciiSlice b1 0 3 ≠ magicID3) from by simpa using h3),
      if_neg (by omega : ¬ (b2.length < 10)),
      if_neg (show ¬ (asciiSlice b2 0 3 ≠ magicID3) from by simpa using h3')]
    unfold readUInt8
    rw [hb 6 (by omega), hb 7 (by omega), hb 8 (by omega), hb 9 (by omega)]
  · have h3' : asciiSlice b2 0 3 ≠ magicID3 := by rw [← hsl]; exact h3
    unfold skipId3Size
    rw [if_neg (by omega : ¬ (b1.length < 10)), if_pos (show asciiSlice b1 0 3 ≠ magicID3 from h3),
      if_neg (by omega : ¬ (b2.length < 10)), if_pos h3']

theorem frameValidAt_agree {b1 b2 : Buffer} {i : Nat}
    (e0 : byteAt b1 i = byteAt b2 i) (e1 : byteAt b1 (i + 1) = byteAt b2 (i + 1))
    (e2 : byteAt b1 (i + 2) = byteAt b2 (i + 2)) :
    frameValidAt b1 i = frameValidAt b2 i := by
  unfold frameValidAt readUInt8
  rw [e0, e1, e2]

theorem decodeFrameAt_agree {b1 b2 : Buffer} {i id3 : Nat}
    (e1 : byteAt b1 (i + 1) = byteAt b2 (i + 1))
    (e2 : byteAt b1 (i + 2) = byteAt b2 (i + 2))
    (e3 : byteAt b1 (i + 3) = byteAt b2 (i + 3)) :
    decodeFrameAt b1 i id3 = decodeFrameAt b2 i id3 := by
  unfold decodeFrameAt readUInt8
  rw [e1, e2, e3]

theorem byteAt_take_append_agree (s0 t : Buffer) (k : Nat)
    (hk : k < (s0.take 8192).length) :
    byteAt ((s0 ++ t).take 8192) k = byteAt (s0.take 8192) k := by
  have hl := List.length_take 8192 s0
  have hk8 : k < 8192 := by omega
  have hk0 : k < s0.length := by omega
  rw [byteAt_take hk8, byteAt_take hk8, byteAt_append_left hk0]

/-- A byte-extension transfer for the MP3 probe: if a source probes as MP3, is
at least 10 bytes long, and does not begin with the RIFF magic, then every
extension of it by further bytes probes to exactly the same MP3 info. -/
theorem probe_append_mp3 {s0 : Buffer} {m : Mp3ProbeInfo} (t : Buffer)
    (h : probe s0 = .ok (.mp3 m)) (hlen : 10 ≤ s0.length)
    (hriff : asciiSlice s0 0 4 ≠ magicRIFF) :
    probe (s0 ++ t) = .ok (.mp3 m) := by
  obtain ⟨-, hm⟩ := probe_ok_mp3_elim h
  have hlh1 := List.length_take 8192 s0
  have hlho := List.length_take 8192 (s0 ++ t)
  have hlapp : (s0 ++ t).length = s0.length + t.length := by simp
  have hagree : ∀ k, k < (s0.take 8192).length →
      byteAt ((s0 ++ t).take 8192) k = byteAt (s0.take 8192) k :=
    byteAt_take_append_agree s0 t
  have hriffo : asciiSlice ((s0 ++ t).take 8192) 0 4 ≠ magicRIFF := by
    have he : asciiSlice ((s0 ++ t).take 8192) 0 4 = asciiSlice (s0.take 8192) 0 4 :=
      asciiSlice_firstn_agree (by omega) (by omega) (fun k hk => hagree k (by omega))
    have he2 : asciiSlice (s0.take 8192) 0 4 = asciiSlice s0 0 4 :=
      asciiSlice_firstn_agree (by omega) (by omega)
        (fun k hk => byteAt_take (by omega))
    rw [he, he2]
    exact hriff
  have hwavo : parseWavHeader ((s0 ++ t).take 8192) = .ok none :=
    parseWavHeader_none_of_magic (fun hc => hriffo hc.1)
  have hid3 : skipId3Size ((s0 ++ t).take 8192) = skipId3Size (s0.take 8192) :=
    skipId3Size_agree (by omega) (by omega) (fun k hk => hagree k (by omega))
  obtain ⟨i, hi1, hi2, hiv, hidec, himin⟩ := parseMp3Header_elim hm
  have hih1 : i + 4 ≤ (s0.take 8192).length := by omega
  have hval' : frameValidAt ((s0 ++ t).take 8192) i = true := by
    rw [frameValidAt_agree (hagree i (by omega)) (hagree (i + 1) (by omega))
      (hagree (i + 2) (by omega))]
    exact hiv
  have hmin' : ∀ k, skipId3Size (s0.take 8192) ≤ k → k < i →
      frameValidAt ((s0 ++ t).take 8192) k = false := by
    intro k hk1 hk2
    rw [frameValidAt_agree (hagree k (by omega)) (hagree (k + 1) (by omega))
      (hagree (k + 2) (by omega))]
    exact himin k hk1 hk2
  have hintro := parseMp3Header_intro hi1
    (show i + 4 ≤ min ((s0 ++ t).take 8192).length (skipId3Size (s0.take 8192) + 4096) from
      by omega)
    hval' hmin'
  have hdec' : decodeFrameAt ((s0 ++ t).take 8192) i (skipId3Size (s0.take 8192)) =
      decodeFrameAt (s0.take 8192) i (skipId3Size (s0.take 8192)) :=
    decodeFrameAt_agree (hagree (i + 1) (by omega)) (hagree (i + 2) (by omega))
      (hagree (i + 3) (by omega))
  apply probe_of_parseMp3 hwavo
  rw [hid3, hintro, hdec', hidec]

set_option maxRecDepth 100000 in
/-- C1 counterexample: two identical 44100 Hz mono 16-bit sources with 4 data
bytes each and gapMs = 5. The code emits bytesPerMs * gapMs = 88 * 5 = 440 gap
zero bytes, total length 492; the length formula of the claim,
44 + sum of data sizes + (n-1) * floor(sampleRate * channels * (bits/8) * gapMs
/ 1000), gives 493. -/
theorem c1_counterexample :
    (stitchWavBuffer [wavSampleA, wavSampleA] (some 5)).map List.length = .ok 492 ∧
      44 + (dataSizeOf wavSampleA + dataSizeOf wavSampleA) +
        (2 - 1) * (44100 * 1 * (16 / 8) * 5 / 1000) = 493 :=
  ⟨rfl, rfl⟩

set_option maxRecDepth 100000 in
theorem c1_witness :
    stitchWavBuffer [wavSampleA, wavSampleA] (some 5) =
      .ok (wavHeaderBytes (wavTotalOf [wavSampleA, wavSampleA]
          (wavGapBytes ⟨44100, 1, 16, some 4⟩ (some 5))) ⟨44100, 1, 16, some 4⟩ ++
        wavPayloadConcat (wavGapBuf ⟨44100, 1, 16, some 4⟩ (some 5))
          [wavSampleA, wavSampleA]) :=
  (c1_wav_buffer_output wavSampleA [wavSampleA] (some 5) ⟨44100, 1, 16, some 4⟩ rfl
    (by
      intro s hs
      rcases List.mem_cons.mp hs with rfl | hs'
      · exact ⟨⟨44100, 1, 16, some 4⟩, rfl, rfl, rfl, rfl⟩
      · rcases List.mem_singleton.mp hs' with rfl
        exact ⟨⟨44100, 1, 16, some 4⟩, rfl, rfl, rfl, rfl⟩)
    (by
      intro s hs
      rcases List.mem_cons.mp hs with rfl | hs'
      · exact ⟨44, 4, rfl, by decide⟩
      · rcases List.mem_singleton.mp hs' with rfl
        exact ⟨44, 4, rfl, by decide⟩)
    (by
      intro s hs
      rcases List.mem_cons.mp hs with rfl | hs'
      · decide
      · rcases List.mem_singleton.mp hs' with rfl
        decide)
    (by decide)).1

/-- One unfolding step of the per-source loop on a list with at least two
sources, once the frame offset of the head is known. -/
theorem mp3Loop_cons_cons (catalog : SilenceCatalog) (info0 : Mp3ProbeInfo)
    (keepFirst : Bool) (gapMs : Nat) (rounding : GapRounding) (opts : StitchMp3Opts)
    (isFirst : Bool) (s r : Buffer) (rs : List Buffer) (off : Nat)
    (ho : mp3FrameOffsetOf s = some off) :
    mp3Loop catalog info0 keepFirst gapMs rounding opts isFirst (s :: r :: rs) =
      (if gapMs > 0 then
        match loadSilenceAsset catalog info0 opts with
        | .error e => .error e
        | .ok silence =>
          match mp3Loop catalog info0 keepFirst gapMs rounding opts false (r :: rs) with
          | .error e => .error e
          | .ok tail =>
            .ok (readBytesBuf s (if keepFirst && isFirst then 0 else off)
              (s.length - (if keepFirst && isFirst then 0 else off)) ::
              (gapAppend info0 gapMs rounding silence ++ tail))
      else
        match mp3Loop catalog info0 keepFirst gapMs rounding opts false (r :: rs) with
        | .error e => .error e
        | .ok tail =>
          .ok (readBytesBuf s (if keepFirst && isFirst then 0 else off)
            (s.length - (if keepFirst && isFirst then 0 else off)) :: tail)) := by
  conv_lhs => rw [mp3Loop]
  simp only [ho]

/-- The per-source loop fails at a head source with no frame sync. -/
theorem mp3Loop_cons_none (catalog : SilenceCatalog) (info0 : Mp3ProbeInfo)
    (keepFirst : Bool) (gapMs : Nat) (rounding : GapRounding) (opts : StitchMp3Opts)
    (isFirst : Bool) (s : Buffer) (rest : List Buffer)
    (ho : mp3FrameOffsetOf s = none) :
    mp3Loop catalog info0 keepFirst gapMs rounding opts isFirst (s :: rest) =
      .error mp3SyncNotFoundMsg := by
  conv_lhs => rw [mp3Loop]
  simp only [ho]

/-- A successful stitchMp3 run with keepFirstId3 at its default emits the whole
first source as its first part. -/
theorem stitchMp3Parts_first (catalog : SilenceCatalog) (s0 : Buffer) (rest : List Buffer)
    (opts : StitchMp3Opts) (info0 : Mp3ProbeInfo) (parts : List Buffer)
    (h0 : probe s0 = .ok (.mp3 info0)) (hk : opts.keepFirstId3.getD true = true)
    (hp : stitchMp3Parts catalog (s0 :: rest) opts = .ok parts) :
    ∃ tail, parts = s0 :: tail := by
  simp only [stitchMp3Parts, h0, hk] at hp
  split at hp
  · exact absurd hp (by simp)
  · rcases ho : mp3FrameOffsetOf s0 with _ | off
    · rw [mp3Loop_cons_none catalog info0 true (opts.gapMs.getD 0)
        (opts.gapRounding.getD .nearest) opts true s0 rest ho] at hp
      exact absurd hp (by simp)
    · have hchunk : readBytesBuf s0 0 (s0.length - 0) = s0 := by
        rw [readBytesBuf_to_end, List.drop_zero]
      cases rest with
      | nil =>
        simp only [mp3Loop, ho, Bool.and_self, eq_self_iff_true, if_true] at hp
        rw [hchunk] at hp
        obtain rfl := (Except.ok.inj hp).symm
        exact ⟨[], rfl⟩
      | cons r rs =>
        rw [mp3Loop_cons_cons catalog info0 true (opts.gapMs.getD 0)
          (opts.gapRounding.getD .nearest) opts true s0 r rs off ho] at hp
        simp only [Bool.and_self, eq_self_iff_true, if_true, hchunk] at hp
        split at hp
        · split at hp
          · exact absurd hp (by simp)
          · split at hp
            · exact absurd hp (by simp)
            · obtain rfl := (Except.ok.inj hp).symm
              exact ⟨_, rfl⟩
        · split at hp
          · exact absurd hp (by simp)
          · obtain rfl := (Except.ok.inj hp).symm
            exact ⟨_, rfl⟩

/-- C7 (amended): probing the produced output returns the same container kind
and core parameters as probing the inputs — for the WAV engine under the
homogeneity, well-formedness, byte-value and header-range side conditions of
C1, and for the MP3 engine additionally provided keepFirstId3 is at its
default true, the first source is at least 10 bytes long and does not begin
with the RIFF magic (the counterexample shows the MP3 side fails without such
conditions). -/
theorem c7_probe_roundtrip :
    (∀ (s0 : Buffer) (rest : List Buffer) (g : Option Nat) (info0 : WavProbeInfo)
        (out : Buffer),
      probe s0 = .ok (.wav info0) →
      (∀ s ∈ s0 :: rest, ∃ i : WavProbeInfo, probe s = .ok (.wav i) ∧
        i.sampleRate = info0.sampleRate ∧ i.channels = info0.channels ∧
        i.bitsPerSample = info0.bitsPerSample) →
      (∀ s ∈ s0 :: rest, WavWellFormed s) →
      (∀ s ∈ s0 :: rest, ∀ x ∈ s, x < 256) →
      36 + wavTotalOf (s0 :: rest) (wavGapBytes info0 g) < 4294967296 →
      stitchWavBuffer (s0 :: rest) g = .ok out →
      probe out = .ok (.wav ⟨info0.sampleRate, info0.channels, info0.bitsPerSample,
        some (wavTotalOf (s0 :: rest) (wavGapBytes info0 g))⟩)) ∧
    (∀ (catalog : SilenceCatalog) (s0 : Buffer) (rest : List Buffer)
        (opts : StitchMp3Opts) (info0 : Mp3ProbeInfo) (out : Buffer),
      probe s0 = .ok (.mp3 info0) →
      opts.keepFirstId3.getD true = true →
      10 ≤ s0.length →
      asciiSlice s0 0 4 ≠ magicRIFF →
      stitchMp3Buffer catalog (s0 :: rest) opts = .ok out →
      probe out = .ok (.mp3 info0)) := by
  constructor
  · intro s0 rest g info0 out h0 hall hwf hbytes hT hout
    have hd : ∀ s ∈ s0 :: rest, (dataChunkOf s).isSome := by
      intro s hs
      obtain ⟨st, sz, hchunk, -⟩ := hwf s hs
      simp [hchunk]
    have hW : wavHeaderWritable (wavTotalOf (s0 :: rest) (wavGapBytes info0 g)) info0 := by
      by_contra hW
      have hcore := stitchWavCore_ok s0 rest g info0 h0 hall hd
      have hbuf : stitchWavBuffer (s0 :: rest) g = .error outOfRangeMsg := by
        simp only [stitchWavBuffer, hcore]
        rw [wavTotalData_map]
        unfold wavGapBytes at hW
        rw [createWavHeader, if_neg hW]
      rw [hbuf] at hout
      exact absurd hout (by simp)
    have hrun := stitchWavBuffer_run s0 rest g info0 h0 hall hd hW
    rw [hrun] at hout
    obtain rfl := (Except.ok.inj hout).symm
    have hpos := parseWavHeader_pos (probe_ok_wav_elim h0)
    have hbounds := parseWavHeader_bounds
      (bytes_lt_of_take (hbytes s0 (List.mem_cons_self s0 rest)) 8192) (probe_ok_wav_elim h0)
    have hbody : (wavPayloadConcat (wavGapBuf info0 g) (s0 :: rest)).length ≤
        wavTotalOf (s0 :: rest) (wavGapBytes info0 g) := by
      rw [wavPayloadConcat_length (wavGapBuf info0 g) (s0 :: rest) hwf, wavGapBuf_length]
      unfold wavTotalOf
      simp only [List.length_cons]
      omega
    exact probe_wavOutput hpos.2.1 hbounds.2.1 hpos.1 hbounds.1 hpos.2.2 hbounds.2.2 hT hbody
  · intro catalog s0 rest opts info0 out h0 hk hlen hriff hout
    unfold stitchMp3Buffer at hout
    rcases hp : stitchMp3Parts catalog (s0 :: rest) opts with e | parts
    · rw [hp] at hout
      exact absurd hout (by simp [Except.map])
    · rw [hp] at hout
      simp only [Except.map, Except.ok.injEq] at hout
      obtain ⟨tail, rfl⟩ := stitchMp3Parts_first catalog s0 rest opts info0 parts h0 hk hp
      rw [← hout]
      simp only [List.flatten_cons]
      exact probe_append_mp3 tail.flatten h0 hlen hriff

set_option maxRecDepth 1000000 in
/-- C7 counterexample: a 43-byte source that probes as MP3 (44100 Hz stereo
128 kbps, frame sync inside the byte-rate field of a truncated RIFF layout),
stitched to a plain MP3 source with no gap, yields an output that probe
classifies as WAV: the round trip does not return the container or parameters
of the inputs. -/
theorem c7_counterexample :
    probe wavLikeMp3 = .ok (.mp3 ⟨44100, 2, some 128, false, 0⟩) ∧
      probe mp3A = .ok (.mp3 ⟨44100, 2, some 128, false, 0⟩) ∧
      stitchMp3Buffer emptyCatalog [wavLikeMp3, mp3A] ⟨some 0, none, none, none⟩ =
        .ok (wavLikeMp3 ++ mp3A) ∧
      (probe (wavLikeMp3 ++ mp3A)).map containerOf = .ok .wav :=
  ⟨rfl, rfl, rfl, rfl⟩

set_option maxRecDepth 1000000 in
theorem c7_witness :
    probe (wavHeaderBytes (wavTotalOf [wavSampleA] (wavGapBytes ⟨44100, 1, 16, some 4⟩ none))
        ⟨44100, 1, 16, some 4⟩ ++
      wavPayloadConcat (wavGapBuf ⟨44100, 1, 16, some 4⟩ none) [wavSampleA]) =
      .ok (.wav ⟨44100, 1, 16, some (wavTotalOf [wavSampleA]
        (wavGapBytes ⟨44100, 1, 16, some 4⟩ none))⟩) ∧
    probe (mp3A ++ mp3A) = .ok (.mp3 ⟨44100, 2, some 128, false, 0⟩) :=
  ⟨c7_probe_roundtrip.1 wavSampleA [] none ⟨44100, 1, 16, some 4⟩ _ rfl
      (by
        intro s hs
        rcases List.mem_singleton.mp hs with rfl
        exact ⟨⟨44100, 1, 16, some 4⟩, rfl, rfl, rfl, rfl⟩)
      (by
        intro s hs
        rcases List.mem_singleton.mp hs with rfl
        exact ⟨44, 4, rfl, by decide⟩)
      (by
        intro s hs
        rcases List.mem_singleton.mp hs with rfl
        decide)
      (by decide) rfl,
   c7_probe_roundtrip.2 emptyCatalog mp3A [mp3A] ⟨some 0, none, none, none⟩
      ⟨44100, 2, some 128, false, 0⟩ (mp3A ++ mp3A) rfl rfl (by decide) (by decide) rfl⟩

end Audiocat
